import Mathlib

/-!
Verification of the transaction classification and tax-reporting aggregation
engine of the `gb-gdev-finance` backend (files `app/routers/transactions.py`,
`app/routers/dashboard.py`, `app/routers/reports.py`, `app/models.py`).

Numeric model: Python `float` arithmetic on currency amounts is modelled by
exact rational arithmetic (`ℚ`), and Python's `round(x, n)` by round-half-to-even
at `n` decimal digits on the exact value.  All concrete inputs used in
counterexamples and witnesses are chosen at points where the binary floating
point computation and the exact rational computation produce the same rounded
decimal results, so the concrete evaluations agree with the running program.

Python `dict` is modelled by an insertion-ordered association list (`updateD`),
and Python's stable `sorted` by a stable insertion sort (`stSort`).
-/

/-- Round-half-to-even to an integer, the rounding mode of Python `round`. -/
def pyRound (q : ℚ) : ℤ :=
  if q - (⌊q⌋ : ℚ) < 1/2 then ⌊q⌋
  else if 1/2 < q - (⌊q⌋ : ℚ) then ⌊q⌋ + 1
  else if ⌊q⌋ % 2 = 0 then ⌊q⌋ else ⌊q⌋ + 1

/-- Python `round(q, 2)`. -/
def round2 (q : ℚ) : ℚ := (pyRound (q * 100) : ℚ) / 100

/-- Python `round(q, 1)`. -/
def round1 (q : ℚ) : ℚ := (pyRound (q * 10) : ℚ) / 10

/-- A rational that is a whole number of cents (two decimal places). -/
def IsCents (q : ℚ) : Prop := ∃ n : ℤ, q = (n : ℚ) / 100

theorem pyRound_intCast (n : ℤ) : pyRound (n : ℚ) = n := by
  rw [pyRound, Int.floor_intCast]
  norm_num

theorem pyRound_floor_or_succ (q : ℚ) :
    pyRound q = ⌊q⌋ ∨ pyRound q = ⌊q⌋ + 1 := by
  rw [pyRound]
  split
  · exact Or.inl rfl
  · split
    · exact Or.inr rfl
    · split
      · exact Or.inl rfl
      · exact Or.inr rfl

theorem round2_of_isCents {q : ℚ} (h : IsCents q) : round2 q = q := by
  obtain ⟨n, rfl⟩ := h
  have h100 : ((n : ℚ) / 100) * 100 = (n : ℚ) := by field_simp
  rw [round2, h100, pyRound_intCast]

theorem isCents_round2 (q : ℚ) : IsCents (round2 q) := ⟨pyRound (q * 100), rfl⟩

theorem isCents_zero : IsCents 0 := ⟨0, by norm_num⟩

theorem isCents_add {a b : ℚ} (ha : IsCents a) (hb : IsCents b) : IsCents (a + b) := by
  obtain ⟨m, rfl⟩ := ha
  obtain ⟨n, rfl⟩ := hb
  exact ⟨m + n, by push_cast; ring⟩

theorem pyRound_le (q : ℚ) : (pyRound q : ℚ) ≤ q + 1/2 := by
  have hf : (⌊q⌋ : ℚ) ≤ q := Int.floor_le q
  rw [pyRound]
  split
  · linarith
  · split
    · push_cast
      rename_i h1 h2
      linarith
    · rename_i h1 h2
      have h3 : q - (⌊q⌋ : ℚ) = 1/2 := le_antisymm (not_lt.mp h2) (not_lt.mp h1)
      split
      · linarith
      · push_cast
        linarith

theorem round1_le (q : ℚ) : round1 q ≤ q + 1/20 := by
  have h := pyRound_le (q * 10)
  rw [round1]
  linarith

theorem pyRound_mono {a b : ℚ} (h : a ≤ b) : pyRound a ≤ pyRound b := by
  have hfab : ⌊a⌋ ≤ ⌊b⌋ := Int.floor_le_floor h
  have hca := pyRound_floor_or_succ a
  have hcb := pyRound_floor_or_succ b
  rcases lt_or_eq_of_le hfab with hlt | heq
  · omega
  · have hra : a - (⌊a⌋ : ℚ) ≤ b - (⌊b⌋ : ℚ) := by
      rw [← heq]; linarith
    rcases lt_trichotomy (a - (⌊a⌋ : ℚ)) (1/2 : ℚ) with h1 | h1 | h1
    · have ha : pyRound a = ⌊a⌋ := by rw [pyRound, if_pos h1]
      omega
    · have ha : pyRound a ≤ ⌊a⌋ + 1 := by omega
      rcases lt_or_eq_of_le hra with h2 | h2
      · have hb2 : 1/2 < b - (⌊b⌋ : ℚ) := by rw [← h1]; exact h2
        have hb : pyRound b = ⌊b⌋ + 1 := by
          rw [pyRound, if_neg (by linarith), if_pos hb2]
        omega
      · have hab : a = b := by
          have : (⌊a⌋ : ℚ) = (⌊b⌋ : ℚ) := by exact_mod_cast heq
          linarith
        rw [hab]
    · have hb1 : 1/2 < b - (⌊b⌋ : ℚ) := lt_of_lt_of_le h1 hra
      have ha : pyRound a = ⌊a⌋ + 1 := by
        rw [pyRound, if_neg (by linarith), if_pos h1]
      have hb : pyRound b = ⌊b⌋ + 1 := by
        rw [pyRound, if_neg (by linarith), if_pos hb1]
      omega

theorem round2_mono {a b : ℚ} (h : a ≤ b) : round2 a ≤ round2 b := by
  have h1 := pyRound_mono (by linarith : a * 100 ≤ b * 100)
  have h2 : (pyRound (a * 100) : ℚ) ≤ (pyRound (b * 100) : ℚ) := by exact_mod_cast h1
  rw [round2, round2]
  linarith

/-- Accumulating cents values with a `round2` after every addition (the
rounding pattern of the Python aggregation loops) is the same as plain
summation, because `round2` is the identity on whole-cent values. -/
theorem foldl_round2_add (l : List ℚ) (a : ℚ) (ha : IsCents a)
    (h : ∀ q ∈ l, IsCents q) :
    l.foldl (fun acc q => round2 (acc + q)) a = a + l.sum := by
  induction l generalizing a with
  | nil => simp
  | cons x xs ih =>
      have hx : IsCents x := h x (List.mem_cons_self x xs)
      have hax : IsCents (a + x) := isCents_add ha hx
      have hs : ∀ q ∈ xs, IsCents q := fun q hq => h q (List.mem_cons_of_mem x hq)
      simp only [List.foldl_cons, List.sum_cons]
      rw [round2_of_isCents hax, ih (a + x) hax hs]
      ring

/-! ### Stable sort (model of Python `sorted`) -/

/-- Insert `x` into `l`, placing it before the first element `y` with
`le x y`.  With a total `le`, folding this from the right is a stable
insertion sort: among elements tied under `le`, earlier input elements
come first, exactly as in Python's stable `sorted`. -/
def stInsert (le : α → α → Bool) (x : α) : List α → List α
  | [] => [x]
  | y :: ys => if le x y then x :: y :: ys else y :: stInsert le x ys

/-- Stable sort modelling Python `sorted(l, key=...)` (with `le` encoding
the key comparison; for `reverse=True` the key order is flipped). -/
def stSort (le : α → α → Bool) (l : List α) : List α :=
  l.foldr (stInsert le) []

theorem stInsert_perm (le : α → α → Bool) (x : α) (l : List α) :
    List.Perm (stInsert le x l) (x :: l) := by
  induction l with
  | nil => exact List.Perm.refl _
  | cons y ys ih =>
      rw [stInsert]
      split
      · exact List.Perm.refl _
      · exact (ih.cons y).trans (List.Perm.swap x y ys)

theorem stSort_perm (le : α → α → Bool) (l : List α) :
    List.Perm (stSort le l) l := by
  induction l with
  | nil => exact List.Perm.refl _
  | cons x xs ih => exact (stInsert_perm le x (stSort le xs)).trans (ih.cons x)

theorem pairwise_stInsert (le : α → α → Bool)
    (htot : ∀ a b, le a b = true ∨ le b a = true)
    (htrans : ∀ a b c, le a b = true → le b c = true → le a c = true)
    (x : α) (l : List α)
    (hl : l.Pairwise (fun a b => le a b = true)) :
    (stInsert le x l).Pairwise (fun a b => le a b = true) := by
  induction l with
  | nil => simp [stInsert]
  | cons y ys ih =>
      rw [stInsert]
      rcases List.pairwise_cons.mp hl with ⟨hy, hys⟩
      split
      · rename_i hxy
        refine List.pairwise_cons.mpr ⟨?_, hl⟩
        intro b hb
        rcases List.mem_cons.mp hb with rfl | hb
        · exact hxy
        · exact htrans x y b hxy (hy b hb)
      · rename_i hxy
        have hyx : le y x = true := by
          rcases htot x y with h | h
          · exact absurd h hxy
          · exact h
        refine List.pairwise_cons.mpr ⟨?_, ih hys⟩
        intro b hb
        have hb2 : b ∈ x :: ys := (stInsert_perm le x ys).mem_iff.mp hb
        rcases List.mem_cons.mp hb2 with rfl | hb3
        · exact hyx
        · exact hy b hb3

theorem pairwise_stSort (le : α → α → Bool)
    (htot : ∀ a b, le a b = true ∨ le b a = true)
    (htrans : ∀ a b c, le a b = true → le b c = true → le a c = true)
    (l : List α) :
    (stSort le l).Pairwise (fun a b => le a b = true) := by
  induction l with
  | nil => exact List.Pairwise.nil
  | cons x xs ih => exact pairwise_stInsert le htot htrans x (stSort le xs) ih

/-- Stability of `stInsert` as a filter equation: for a predicate `p` on
which `le` always holds (a tie class of the sort key), inserting keeps
`p`-elements in input order. -/
theorem filter_stInsert (le : α → α → Bool) (p : α → Bool)
    (hp : ∀ a b, p a = true → p b = true → le a b = true)
    (x : α) (l : List α) :
    (stInsert le x l).filter p = (x :: l).filter p := by
  induction l with
  | nil => rfl
  | cons y ys ih =>
      rw [stInsert]
      split
      · rfl
      · rename_i hxy
        have hnot : p x = false ∨ p y = false := by
          cases hpx : p x with
          | false => exact Or.inl rfl
          | true =>
              cases hpy : p y with
              | false => exact Or.inr rfl
              | true => exact absurd (hp x y hpx hpy) hxy
        have e1 : (y :: stInsert le x ys).filter p
            = (if p y then [y] else []) ++ (stInsert le x ys).filter p := by
          cases hpy : p y <;> simp [List.filter_cons, hpy]
        have e3 : (stInsert le x ys).filter p
            = (if p x then [x] else []) ++ ys.filter p := by
          cases hpx : p x <;> simp [ih, List.filter_cons, hpx]
        have e2 : (x :: y :: ys).filter p
            = (if p x then [x] else []) ++ ((if p y then [y] else []) ++ ys.filter p) := by
          cases hpx : p x <;> cases hpy : p y <;>
            simp [List.filter_cons, hpx, hpy]
        rw [e1, e3, e2]
        rcases hnot with hx | hy
        · simp [hx]
        · simp [hy]

theorem filter_stSort (le : α → α → Bool) (p : α → Bool)
    (hp : ∀ a b, p a = true → p b = true → le a b = true) (l : List α) :
    (stSort le l).filter p = l.filter p := by
  induction l with
  | nil => rfl
  | cons x xs ih =>
      have h1 : (stInsert le x (stSort le xs)).filter p
          = (x :: stSort le xs).filter p := filter_stInsert le p hp x (stSort le xs)
      calc (stSort le (x :: xs)).filter p
          = (x :: stSort le xs).filter p := h1
        _ = (x :: xs).filter p := by
            simp only [List.filter_cons]
            rw [ih]

/-! ### Insertion-ordered dictionary (model of Python `dict`) -/

/-- `updateD k init f m` models the Python idiom
`if k not in m: m[k] = init` followed by a field update `f` of `m[k]`:
an existing binding is updated in place, a missing key is appended at the
end (insertion order), exactly like a Python `dict`. -/
def updateD [DecidableEq κ] (k : κ) (init : β) (f : β → β) :
    List (κ × β) → List (κ × β)
  | [] => [(k, f init)]
  | (k1, v) :: rest =>
      if k1 = k then (k1, f v) :: rest else (k1, v) :: updateD k init f rest

/-- Lookup in the association-list dictionary. -/
def lookupD [DecidableEq κ] (k : κ) : List (κ × β) → Option β
  | [] => none
  | (k1, v) :: rest => if k1 = k then some v else lookupD k rest

theorem lookupD_updateD [DecidableEq κ] (k k2 : κ) (init : β) (f : β → β)
    (m : List (κ × β)) :
    lookupD k (updateD k2 init f m)
      = if k2 = k then some (f ((lookupD k m).getD init)) else lookupD k m := by
  induction m with
  | nil =>
      by_cases h : k2 = k
      · simp [updateD, lookupD, h]
      · simp [updateD, lookupD, h]
  | cons e rest ih =>
      obtain ⟨k1, v⟩ := e
      by_cases h1 : k1 = k2
      · subst h1
        by_cases h2 : k1 = k
        · subst h2
          simp [updateD, lookupD]
        · simp [updateD, lookupD, h2]
      · rw [updateD, if_neg h1]
        by_cases h2 : k1 = k
        · subst h2
          have hne : ¬ k2 = k1 := fun h => h1 h.symm
          simp [lookupD, hne]
        · simp [lookupD, h2, ih]

theorem keys_updateD [DecidableEq κ] (k : κ) (init : β) (f : β → β)
    (m : List (κ × β)) (k2 : κ) :
    k2 ∈ (updateD k init f m).map Prod.fst ↔ k2 ∈ m.map Prod.fst ∨ k2 = k := by
  induction m with
  | nil => simp [updateD, eq_comm]
  | cons e rest ih =>
      obtain ⟨k1, v⟩ := e
      by_cases h : k1 = k
      · rw [updateD, if_pos h]
        subst h
        simp only [List.map_cons, List.mem_cons]
        tauto
      · rw [updateD, if_neg h]
        simp only [List.map_cons, List.mem_cons, ih]
        tauto

theorem nodup_keys_updateD [DecidableEq κ] (k : κ) (init : β) (f : β → β)
    (m : List (κ × β)) (h : (m.map Prod.fst).Nodup) :
    ((updateD k init f m).map Prod.fst).Nodup := by
  induction m with
  | nil => simp [updateD]
  | cons e rest ih =>
      obtain ⟨k1, v⟩ := e
      simp only [List.map_cons, List.nodup_cons] at h
      by_cases hk : k1 = k
      · rw [updateD, if_pos hk]
        simp only [List.map_cons, List.nodup_cons]
        exact h
      · rw [updateD, if_neg hk]
        simp only [List.map_cons, List.nodup_cons]
        refine ⟨?_, ih h.2⟩
        intro hmem
        rcases (keys_updateD k init f rest k1).mp hmem with h2 | h2
        · exact h.1 h2
        · exact hk h2

theorem mem_updateD [DecidableEq κ] (k : κ) (init : β) (f : β → β)
    (m : List (κ × β)) (e : κ × β) (he : e ∈ updateD k init f m) :
    e ∈ m ∨ ∃ v0, e = (k, f v0) ∧ (v0 = init ∨ (k, v0) ∈ m) := by
  induction m with
  | nil =>
      simp only [updateD, List.mem_singleton] at he
      exact Or.inr ⟨init, he, Or.inl rfl⟩
  | cons p rest ih =>
      obtain ⟨k1, v⟩ := p
      by_cases h : k1 = k
      · rw [updateD, if_pos h] at he
        subst h
        rcases List.mem_cons.mp he with rfl | he2
        · exact Or.inr ⟨v, rfl, Or.inr (List.mem_cons_self _ _)⟩
        · exact Or.inl (List.mem_cons_of_mem _ he2)
      · rw [updateD, if_neg h] at he
        simp only [List.mem_cons] at he
        rcases he with rfl | he
        · exact Or.inl (List.mem_cons_self _ _)
        · rcases ih he with h2 | ⟨v0, hv0, h3⟩
          · exact Or.inl (List.mem_cons_of_mem _ h2)
          · rcases h3 with h3 | h3
            · exact Or.inr ⟨v0, hv0, Or.inl h3⟩
            · exact Or.inr ⟨v0, hv0, Or.inr (List.mem_cons_of_mem _ h3)⟩

theorem lookupD_of_mem_nodup [DecidableEq κ] {m : List (κ × β)} {k : κ} {v : β}
    (hmem : (k, v) ∈ m) (hnd : (m.map Prod.fst).Nodup) : lookupD k m = some v := by
  induction m with
  | nil => cases hmem
  | cons e rest ih =>
      obtain ⟨k1, v1⟩ := e
      simp only [List.map_cons, List.nodup_cons] at hnd
      rcases List.mem_cons.mp hmem with h | h
      · injection h with h1 h2
        subst h1
        subst h2
        simp [lookupD]
      · have hk : k1 ≠ k := by
          intro hk
          subst hk
          exact hnd.1 (List.mem_map.mpr ⟨(k1, v), h, rfl⟩)
        simp [lookupD, hk, ih h hnd.2]

/-! ### Data model (`app/models.py`) -/

/-- A calendar date, compared lexicographically like Python `datetime.date`. -/
structure PyDate where
  year : Int
  month : Nat
  day : Nat
deriving DecidableEq

/-- Python date comparison `a <= b`. -/
def dateLE (a b : PyDate) : Bool :=
  if a.year = b.year then
    if a.month = b.month then a.day ≤ b.day else a.month < b.month
  else a.year < b.year

/-- Python date comparison `a < b`. -/
def dateLT (a b : PyDate) : Bool := !(dateLE b a)

/-- Gregorian leap year, as used by Python `calendar`. -/
def isLeap (y : Int) : Bool := y % 4 == 0 && (y % 100 != 0 || y % 400 == 0)

/-- `calendar.monthrange(y, m)[1]`: the number of days in the month. -/
def monthrange (y : Int) (m : Nat) : Nat :=
  if m = 2 then (if isLeap y then 29 else 28)
  else if m = 4 ∨ m = 6 ∨ m = 9 ∨ m = 11 then 30
  else 31

/-- `Category` ORM model (fields used by the reporting core). -/
structure Category where
  id : Nat
  name : String
  type : String
  tax_category : Option String
deriving DecidableEq

/-- `Transaction` ORM model with its resolved `category_obj` relationship
(fields used by the reporting core). -/
structure Transaction where
  id : Nat
  date : PyDate
  description : String
  amount : ℚ
  vendor : Option String
  category_obj : Option Category
deriving DecidableEq

/-- `Transaction.category_id` (null iff the transaction is unclassified). -/
def Transaction.category_id (t : Transaction) : Option Nat := t.category_obj.map (fun c => c.id)

/-- `Transaction.category_name` property. -/
def Transaction.category_name (t : Transaction) : Option String :=
  t.category_obj.map (fun c => c.name)

/-- `Transaction.tax_category` property. -/
def Transaction.tax_category (t : Transaction) : Option String :=
  t.category_obj.bind (fun c => c.tax_category)

/-- Python truthiness fallback `s or dflt` for an optional string: `None`
and the empty string both fall back. -/
def pyOrStr (s : Option String) (dflt : String) : String :=
  match s with
  | none => dflt
  | some v => if v = "" then dflt else v

/-- `txn.category_obj.type if txn.category_obj else "expense"`. -/
def Transaction.catType (t : Transaction) : String :=
  match t.category_obj with
  | some c => c.type
  | none => "expense"

/-- `txn.tax_category or "pending_review"`. -/
def Transaction.taxKey (t : Transaction) : String := pyOrStr t.tax_category "pending_review"

/-! ### Classifier (`app/routers/transactions.py`) -/

/-- Python substring containment `needle in hay` on character lists. -/
def listInfix (needle : List Char) : List Char → Bool
  | [] => needle.isEmpty
  | c :: t => needle.isPrefixOf (c :: t) || listInfix needle t

/-- Python `needle in hay` for strings. -/
def strIn (needle hay : String) : Bool := listInfix needle.data hay.data

/-- The fixed keyword table `CATEGORY_KEYWORDS`, as an ordered sequence of
entries in the source's literal order. -/
def CATEGORY_KEYWORDS : List (String × List String) :=
  [("Software & SaaS",
    ["subscription", "saas", "software", "license", "plugin", "slack", "zoom",
     "notion", "github", "gitlab", "figma", "linear", "jira", "confluence",
     "adobe", "microsoft", "google workspace", "dropbox", "hubspot", "salesforce",
     "intercom", "zendesk", "asana", "trello", "monday", "airtable", "clickup",
     "loom", "miro", "1password", "lastpass", "okta", "stripe atlas"]),
   ("Cloud Infrastructure",
    ["aws", "amazon web services", "gcp", "google cloud", "azure", "digitalocean",
     "heroku", "vercel", "netlify", "cloudflare", "linode", "vultr", "hetzner",
     "ovh", "ec2", "s3", "rds", "lambda", "kubernetes", "k8s", "docker", "cdn",
     "hosting", "server"]),
   ("Professional Services",
    ["consulting", "consultant", "lawyer", "attorney", "legal", "law firm",
     "accountant", "cpa", "bookkeeping", "contractor", "freelance", "agency",
     "professional service", "advisory", "staffing", "retainer"]),
   ("Travel & Transportation",
    ["flight", "airline", "united airlines", "delta", "american airlines",
     "southwest", "jetblue", "hotel", "marriott", "hilton", "hyatt", "airbnb",
     "vrbo", "uber", "lyft", "taxi", "train", "amtrak", "rental car", "enterprise",
     "hertz", "avis", "parking", "toll", "transit", "transportation", "travel"]),
   ("Meals & Entertainment",
    ["restaurant", "dining", "lunch", "dinner", "breakfast", "coffee", "starbucks",
     "cafe", "cafeteria", "food", "bar", "pub", "grubhub", "doordash", "ubereats",
     "seamless", "entertainment", "event", "concert", "theater", "sports",
     "team lunch", "client dinner", "client lunch"]),
   ("Office Supplies",
    ["staples", "office depot", "officemax", "supplies", "stationery", "printer",
     "paper", "pen", "markers", "notebook", "binder", "desk", "chair", "office",
     "whiteboard", "post-it"]),
   ("Marketing & Advertising",
    ["google ads", "adwords", "facebook ads", "meta ads", "linkedin ads",
     "twitter ads", "advertising", "marketing", "seo", "sem", "social media",
     "campaign", "promotion", "mailchimp", "constant contact", "buffer",
     "hootsuite", "canva", "brand", "public relations", "pr agency"]),
   ("Insurance",
    ["insurance", "liability", "coverage", "policy", "premium", "workers comp",
     "health insurance", "life insurance", "disability", "business insurance",
     "general liability", "e&o", "errors and omissions"]),
   ("Rent & Utilities",
    ["rent", "lease", "office space", "coworking", "wework", "regus",
     "electricity", "electric", "water", "gas", "natural gas", "internet",
     "broadband", "phone", "telephone", "utility", "utilities"]),
   ("Education & Training",
    ["course", "training", "workshop", "conference", "seminar", "book",
     "textbook", "udemy", "coursera", "linkedin learning", "pluralsight",
     "skillshare", "masterclass", "certification", "tuition", "bootcamp",
     "webinar", "education", "learning"]),
   ("Hardware & Equipment",
    ["laptop", "computer", "macbook", "iphone", "ipad", "monitor", "keyboard",
     "mouse", "headset", "camera", "server hardware", "hard drive", "ssd", "ram",
     "cpu", "gpu", "tablet", "equipment", "hardware", "device", "peripherals",
     "apple store", "best buy", "newegg", "dell", "hp", "lenovo"]),
   ("Health & Medical",
    ["doctor", "dentist", "medical", "health", "pharmacy", "prescription",
     "hospital", "clinic", "cvs", "walgreens", "rite aid", "vision",
     "optometrist", "chiropractor", "therapy", "counseling", "gym", "fitness"])]

/-- `sum(1 for kw in keywords if kw in text)`. -/
def countKw (text : String) (kws : List String) : Nat :=
  (kws.filter (fun kw => strIn kw text)).length

/-- `_classify_text`: best `(match_count, category_name)` over the keyword
table, keeping the first category on ties (`count > best_count`). -/
def classify_text (text : String) : Nat × String :=
  CATEGORY_KEYWORDS.foldl
    (fun best e =>
      let count := countKw text e.2
      if best.1 < count then (count, e.1) else best)
    (0, "")

/-- `" ".join(filter(None, [description, vendor])).lower()`. -/
def searchTextOf (description : String) (vendor : Option String) : String :=
  (String.intercalate " "
    (([some description, vendor]).filterMap
      (fun s => match s with
        | none => none
        | some v => if v = "" then none else some v))).toLower

/-- The response shape of the classify endpoint. -/
structure ClassifyResponse where
  category_id : Option Nat
  category_name : String
  tax_category : Option String
  confidence : ℚ
  match_count : Nat
deriving DecidableEq

/-- `classify_transaction` endpoint logic (storage snapshot passed as the
category list). -/
def classify_transaction (cats : List Category) (description : String)
    (vendor : Option String) : ClassifyResponse :=
  let search_text := searchTextOf description vendor
  let r := classify_text search_text
  if r.2 = "" ∨ r.1 = 0 then
    let uncat := cats.find? (fun c => c.name == "Uncategorized")
    { category_id := uncat.map (fun c => c.id)
      category_name := "Uncategorized"
      tax_category := some "pending_review"
      confidence := 0
      match_count := 0 }
  else
    let cat := cats.find? (fun c => c.name == r.2)
    { category_id := cat.map (fun c => c.id)
      category_name := r.2
      tax_category := cat.bind (fun c => c.tax_category)
      confidence := round2 (min 1 ((r.1 : ℚ) / 3))
      match_count := r.1 }

/-! ### Tax summary report (`app/routers/reports.py`) -/

/-- Deductibility factors per tax category (`TAX_DEDUCTIBILITY`). -/
def TAX_DEDUCTIBILITY : List (String × ℚ) :=
  [("business_expense", 1),
   ("meals_entertainment", 1/2),
   ("depreciation", 1),
   ("medical_expense", 1),
   ("income", 0),
   ("not_deductible", 0),
   ("pending_review", 0)]

/-- `TAX_DEDUCTIBILITY.get(tax_cat, 0.0)`. -/
def taxFactor (tag : String) : ℚ :=
  ((TAX_DEDUCTIBILITY.find? (fun e => e.1 == tag)).map Prod.snd).getD 0

/-- One value of the `by_tax_cat` dictionary. -/
structure TaxBucket where
  gross_amount : ℚ
  deductible_amount : ℚ
  transaction_count : Nat
  deductibility_rate : ℚ
deriving DecidableEq

/-- Loop state of the `tax_summary_report` transaction loop. -/
structure TaxState where
  total_income : ℚ
  total_expenses : ℚ
  by_tax_cat : List (String × TaxBucket)
  pending_review_count : Nat
deriving DecidableEq

/-- The fresh bucket inserted on first sight of a tax category. -/
def taxIni (t : Transaction) : TaxBucket :=
  { gross_amount := 0, deductible_amount := 0, transaction_count := 0,
    deductibility_rate := taxFactor t.taxKey }

/-- The per-transaction bucket update of `tax_summary_report`
(`deductible = round(expense_amt * factor, 2)` is accumulated, with a
further `round` on each running sum). -/
def taxUpd (t : Transaction) (b : TaxBucket) : TaxBucket :=
  { b with
    gross_amount := round2 (b.gross_amount + |t.amount|),
    deductible_amount :=
      round2 (b.deductible_amount + round2 (|t.amount| * taxFactor t.taxKey)),
    transaction_count := b.transaction_count + 1 }

/-- One iteration of the `tax_summary_report` loop. -/
def taxStep (s : TaxState) (t : Transaction) : TaxState :=
  if t.taxKey == "income" then
    { s with total_income := s.total_income + t.amount }
  else
    { total_income := s.total_income
      total_expenses := s.total_expenses + |t.amount|
      by_tax_cat := updateD t.taxKey (taxIni t) (taxUpd t) s.by_tax_cat
      pending_review_count :=
        s.pending_review_count + (if t.taxKey == "pending_review" then 1 else 0) }

/-- The response shape of `tax_summary_report`. -/
structure TaxSummary where
  year : Int
  total_income : ℚ
  total_expenses : ℚ
  total_deductible : ℚ
  net_income : ℚ
  by_tax_category : List (String × TaxBucket)
  unclassified_count : Nat
  transactions_pending_review : Nat
deriving DecidableEq

/-- Date-range filter `start <= t.date <= end` for the tax year. -/
def inTaxYear (year : Int) (t : Transaction) : Bool :=
  dateLE ⟨year, 1, 1⟩ t.date && dateLE t.date ⟨year, 12, 31⟩

/-- `tax_summary_report` over the stored transactions. -/
def tax_summary_report (year : Int) (txns : List Transaction) : TaxSummary :=
  let inYear := txns.filter (inTaxYear year)
  let s := inYear.foldl taxStep ⟨0, 0, [], 0⟩
  let total_deductible := (s.by_tax_cat.map (fun e => e.2.deductible_amount)).sum
  { year := year
    total_income := round2 s.total_income
    total_expenses := round2 s.total_expenses
    total_deductible := round2 total_deductible
    net_income := round2 (s.total_income - s.total_expenses)
    by_tax_category := s.by_tax_cat
    unclassified_count := (inYear.filter (fun t => t.category_obj.isNone)).length
    transactions_pending_review := s.pending_review_count }

/-! ### Monthly report (`app/routers/reports.py`) -/

/-- One value of the `category_totals` dictionary / `by_category` entry. -/
structure MonthCatRow where
  category_id : Option Nat
  category_name : String
  type : String
  amount : ℚ
  count : Nat
deriving DecidableEq

/-- Loop state of the `monthly_report` transaction loop. -/
structure MonthlyState where
  total_income : ℚ
  total_expenses : ℚ
  category_totals : List (String × MonthCatRow)
deriving DecidableEq

/-- `cat_name = txn.category_name or "Uncategorized"`, the grouping key of
the monthly report. -/
def Transaction.monthKey (t : Transaction) : String :=
  pyOrStr t.category_name "Uncategorized"

/-- The fresh `category_totals` row inserted on first sight of a name. -/
def monthlyIni (t : Transaction) : MonthCatRow :=
  { category_id := t.category_id, category_name := t.monthKey,
    type := t.catType, amount := 0, count := 0 }

/-- The per-transaction row update of `monthly_report`. -/
def monthlyUpd (t : Transaction) (r : MonthCatRow) : MonthCatRow :=
  { r with amount := round2 (r.amount + |t.amount|), count := r.count + 1 }

/-- One iteration of the `monthly_report` loop. -/
def monthlyStep (s : MonthlyState) (t : Transaction) : MonthlyState :=
  { total_income :=
      if t.catType == "income" then s.total_income + t.amount else s.total_income
    total_expenses :=
      if t.catType == "income" then s.total_expenses else s.total_expenses + |t.amount|
    category_totals := updateD t.monthKey (monthlyIni t) (monthlyUpd t) s.category_totals }

/-- The response shape of `monthly_report`. -/
structure MonthlyReport where
  year : Int
  month : Nat
  total_income : ℚ
  total_expenses : ℚ
  net : ℚ
  transaction_count : Nat
  by_category : List MonthCatRow
deriving DecidableEq

/-- Date-range filter for the single month `[1, monthrange]`. -/
def inMonth (year : Int) (month : Nat) (t : Transaction) : Bool :=
  dateLE ⟨year, month, 1⟩ t.date && dateLE t.date ⟨year, month, monthrange year month⟩

/-- `monthly_report` over the stored transactions. -/
def monthly_report (year : Int) (month : Nat) (txns : List Transaction) : MonthlyReport :=
  let sel := txns.filter (inMonth year month)
  let s := sel.foldl monthlyStep ⟨0, 0, []⟩
  { year := year
    month := month
    total_income := round2 s.total_income
    total_expenses := round2 s.total_expenses
    net := round2 (s.total_income - s.total_expenses)
    transaction_count := sel.length
    by_category :=
      stSort (fun a b => decide (b.amount ≤ a.amount)) (s.category_totals.map Prod.snd) }

/-! ### Dashboard (`app/routers/dashboard.py`) -/

/-- One entry of `top_categories`. -/
structure TopCatRow where
  category_id : Nat
  category_name : String
  tax_category : Option String
  amount : ℚ
  percentage : ℚ
deriving DecidableEq

/-- One row of `monthly_trend` (after the `net` pass). -/
structure TrendRow where
  year : Int
  month : Nat
  income : ℚ
  expenses : ℚ
  net : ℚ
deriving DecidableEq

/-- One value of the trend dictionary, before `net` is attached. -/
structure TrendCell where
  year : Int
  month : Nat
  income : ℚ
  expenses : ℚ
deriving DecidableEq

/-- The response shape of `get_dashboard`. -/
structure Dashboard where
  total_income : ℚ
  total_expenses : ℚ
  net_income : ℚ
  unclassified_count : Nat
  top_categories : List TopCatRow
  monthly_trend : List TrendRow
  recent_transactions : List Transaction
deriving DecidableEq

/-- The all-time totals loop of `get_dashboard`. -/
def totalsStep (s : ℚ × ℚ) (t : Transaction) : ℚ × ℚ :=
  if t.catType == "income" then (s.1 + t.amount, s.2) else (s.1, s.2 + |t.amount|)

/-- The `cat_totals` accumulation loop of `get_dashboard`
(`if txn.category_id and txn.category_id in expense_cat_ids`). -/
def catTotalsStep (ids : List Nat) (m : List (Nat × ℚ)) (t : Transaction) :
    List (Nat × ℚ) :=
  match t.category_id with
  | none => m
  | some cid =>
      if cid != 0 && ids.contains cid then updateD cid 0 (fun v => v + |t.amount|) m
      else m

/-- Lexicographic `(year, month)` key order used to sort the trend. -/
def ymLE (a b : Int × Nat) : Bool :=
  if a.1 = b.1 then a.2 ≤ b.2 else a.1 < b.1

/-- `ORDER BY date DESC, id DESC` comparison for recent transactions. -/
def recentLE (a b : Transaction) : Bool :=
  if a.date = b.date then b.id ≤ a.id else dateLT b.date a.date

/-- Start of the dashboard trend window:
`date(today.year - 1, today.month - 11, 1)` when `today.month > 11`, else
`date(today.year - 1, today.month + 1, 1)`. -/
def trendStart (today : PyDate) : PyDate :=
  if today.month > 11 then ⟨today.year - 1, today.month - 11, 1⟩
  else ⟨today.year - 1, today.month + 1, 1⟩

/-- The fresh trend cell inserted on first sight of a `(year, month)` key. -/
def trendIni (t : Transaction) : TrendCell :=
  { year := t.date.year, month := t.date.month, income := 0, expenses := 0 }

/-- The per-transaction trend-cell update of `get_dashboard`. -/
def trendUpd (t : Transaction) (c : TrendCell) : TrendCell :=
  if t.catType == "income" then { c with income := round2 (c.income + t.amount) }
  else { c with expenses := round2 (c.expenses + |t.amount|) }

/-- One iteration of the dashboard trend loop. -/
def trendStep (start : PyDate) (m : List ((Int × Nat) × TrendCell)) (t : Transaction) :
    List ((Int × Nat) × TrendCell) :=
  if dateLT t.date start then m
  else updateD (t.date.year, t.date.month) (trendIni t) (trendUpd t) m

/-- The `top_categories` computation of `get_dashboard` (`total_expenses`
passed unrounded, as in the source). -/
def mkTopCat (ecats : List Category) (total_expenses : ℚ) (e : Nat × ℚ) :
    TopCatRow :=
  { category_id := e.1
    category_name := ((ecats.find? (fun c => c.id == e.1)).map (fun c => c.name)).getD ""
    tax_category :=
      ((ecats.find? (fun c => c.id == e.1)).map (fun c => c.tax_category)).getD none
    amount := round2 e.2
    percentage := if total_expenses ≠ 0 then round1 (e.2 / total_expenses * 100) else 0 }

def topCategoriesOf (cats : List Category) (txns : List Transaction)
    (total_expenses : ℚ) : List TopCatRow :=
  let ecats := cats.filter (fun c => c.type == "expense")
  let ids := ecats.map (fun c => c.id)
  let totals := txns.foldl (catTotalsStep ids) []
  let ranked := stSort (fun a b => decide (b.2 ≤ a.2)) totals
  (ranked.take 5).map (mkTopCat ecats total_expenses)

/-- `get_dashboard` over the stored categories and transactions, with the
current date passed explicitly. -/
def get_dashboard (cats : List Category) (txns : List Transaction)
    (today : PyDate) : Dashboard :=
  let s := txns.foldl totalsStep (0, 0)
  let start := trendStart today
  let cells := (txns.foldl (trendStep start) []).map Prod.snd
  { total_income := round2 s.1
    total_expenses := round2 s.2
    net_income := round2 (s.1 - s.2)
    unclassified_count := (txns.filter (fun t => t.category_obj.isNone)).length
    top_categories := topCategoriesOf cats txns s.2
    monthly_trend :=
      (stSort (fun a b => ymLE (a.year, a.month) (b.year, b.month)) cells).map
        (fun c => { year := c.year, month := c.month, income := c.income,
                    expenses := c.expenses, net := round2 (c.income - c.expenses) })
    recent_transactions := (stSort recentLE txns).take 5 }

/-! ### Category report (`app/routers/reports.py`) -/

/-- One row of `monthly_breakdown`. -/
structure MonthBucket where
  year : Int
  month : Nat
  amount : ℚ
  count : Nat
deriving DecidableEq

/-- The response shape of `category_report` (`none` models the 404). -/
structure CategoryReport where
  category : Category
  start_date : Option PyDate
  end_date : Option PyDate
  total_amount : ℚ
  transaction_count : Nat
  average_transaction : ℚ
  monthly_breakdown : List MonthBucket
  transactions : List Transaction
deriving DecidableEq

/-- The transaction filter of `category_report` (category id plus optional
inclusive date bounds). -/
def inCategoryQuery (category_id : Nat) (start stop : Option PyDate)
    (t : Transaction) : Bool :=
  t.category_id == some category_id
    && (match start with | some s => dateLE s t.date | none => true)
    && (match stop with | some e => dateLE t.date e | none => true)

/-- The fresh breakdown row inserted on first sight of a `(year, month)`. -/
def breakIni (t : Transaction) : MonthBucket :=
  { year := t.date.year, month := t.date.month, amount := 0, count := 0 }

/-- The per-transaction breakdown update of `category_report`. -/
def breakUpd (t : Transaction) (b : MonthBucket) : MonthBucket :=
  { b with amount := round2 (b.amount + |t.amount|), count := b.count + 1 }

/-- One iteration of the `category_report` monthly-breakdown loop. -/
def breakdownStep (m : List ((Int × Nat) × MonthBucket)) (t : Transaction) :
    List ((Int × Nat) × MonthBucket) :=
  updateD (t.date.year, t.date.month) (breakIni t) (breakUpd t) m

/-- The selected transactions of `category_report`: filtered by category id
and optional date bounds, ordered by date (stable). -/
def catReportSel (txns : List Transaction) (category_id : Nat)
    (start stop : Option PyDate) : List Transaction :=
  stSort (fun a b => dateLE a.date b.date)
    (txns.filter (inCategoryQuery category_id start stop))

/-- `category_report`; returns `none` (HTTP 404) iff the category id does
not resolve. -/
def category_report (cats : List Category) (txns : List Transaction)
    (category_id : Nat) (start stop : Option PyDate) : Option CategoryReport :=
  match cats.find? (fun c => c.id == category_id) with
  | none => none
  | some cat =>
      let sel := catReportSel txns category_id start stop
      let total := (sel.map (fun t => |t.amount|)).sum
      let monthly := sel.foldl breakdownStep []
      some
        { category := cat
          start_date := start
          end_date := stop
          total_amount := round2 total
          transaction_count := sel.length
          average_transaction :=
            if sel.length ≠ 0 then round2 (total / (sel.length : ℚ)) else 0
          monthly_breakdown :=
            stSort (fun a b => ymLE (a.year, a.month) (b.year, b.month))
              (monthly.map Prod.snd)
          transactions := sel }

/-! ### Generic characterization of the dictionary-accumulation loops -/

/-- A grouping fold: one `updateD` per item, keyed by `kf`. Every
dictionary-accumulation loop of the reports is an instance (possibly after
filtering out skipped items). -/
def dictFold (kf : ι → κ) [DecidableEq κ] (ini : ι → β) (upd : ι → β → β)
    (l : List ι) (m0 : List (κ × β)) : List (κ × β) :=
  l.foldl (fun m t => updateD (kf t) (ini t) (upd t) m) m0

theorem lookupD_dictFold (kf : ι → κ) [DecidableEq κ] (ini : ι → β)
    (upd : ι → β → β) (l : List ι) (m0 : List (κ × β)) (k : κ) :
    lookupD k (dictFold kf ini upd l m0)
      = (l.filter (fun t => decide (kf t = k))).foldl
          (fun acc t => some (upd t (acc.getD (ini t)))) (lookupD k m0) := by
  induction l generalizing m0 with
  | nil => rfl
  | cons t l ih =>
      rw [dictFold, List.foldl_cons]
      rw [show ∀ m, List.foldl (fun m t => updateD (kf t) (ini t) (upd t) m) m l
            = dictFold kf ini upd l m from fun m => rfl]
      rw [ih, lookupD_updateD, List.filter_cons]
      by_cases h : kf t = k
      · rw [if_pos h, if_pos (decide_eq_true h), List.foldl_cons]
      · rw [if_neg h, if_neg (by simp [h])]

theorem foldl_optStep_some (ini : ι → β) (upd : ι → β → β) (ts : List ι) (v : β) :
    ts.foldl (fun acc t => some (upd t (acc.getD (ini t)))) (some v)
      = some (ts.foldl (fun w t => upd t w) v) := by
  induction ts generalizing v with
  | nil => rfl
  | cons t ts ih => simp only [List.foldl_cons, Option.getD_some, ih]

theorem foldl_optStep_none (ini : ι → β) (upd : ι → β → β) (ts : List ι) :
    ts.foldl (fun acc t => some (upd t (acc.getD (ini t)))) none
      = match ts with
        | [] => none
        | t0 :: rest => some (rest.foldl (fun w t => upd t w) (upd t0 (ini t0))) := by
  cases ts with
  | nil => rfl
  | cons t0 rest =>
      simp only [List.foldl_cons, Option.getD_none]
      exact foldl_optStep_some ini upd rest (upd t0 (ini t0))

theorem keys_dictFold (kf : ι → κ) [DecidableEq κ] (ini : ι → β)
    (upd : ι → β → β) (l : List ι) (m0 : List (κ × β)) (k : κ) :
    k ∈ (dictFold kf ini upd l m0).map Prod.fst
      ↔ k ∈ m0.map Prod.fst ∨ ∃ t ∈ l, kf t = k := by
  induction l generalizing m0 with
  | nil => simp [dictFold]
  | cons t l ih =>
      rw [dictFold, List.foldl_cons]
      rw [show ∀ m, List.foldl (fun m t => updateD (kf t) (ini t) (upd t) m) m l
            = dictFold kf ini upd l m from fun m => rfl]
      rw [ih, keys_updateD]
      constructor
      · rintro ((h | h) | ⟨t2, ht2, rfl⟩)
        · exact Or.inl h
        · exact Or.inr ⟨t, List.mem_cons_self _ _, h.symm⟩
        · exact Or.inr ⟨t2, List.mem_cons_of_mem _ ht2, rfl⟩
      · rintro (h | ⟨t2, ht2, rfl⟩)
        · exact Or.inl (Or.inl h)
        · rcases List.mem_cons.mp ht2 with rfl | ht3
          · exact Or.inl (Or.inr rfl)
          · exact Or.inr ⟨t2, ht3, rfl⟩

theorem nodup_keys_dictFold (kf : ι → κ) [DecidableEq κ] (ini : ι → β)
    (upd : ι → β → β) (l : List ι) (m0 : List (κ × β))
    (h : (m0.map Prod.fst).Nodup) :
    ((dictFold kf ini upd l m0).map Prod.fst).Nodup := by
  induction l generalizing m0 with
  | nil => exact h
  | cons t l ih =>
      rw [dictFold, List.foldl_cons]
      exact ih _ (nodup_keys_updateD _ _ _ _ h)

theorem mem_dictFold_invariant (kf : ι → κ) [DecidableEq κ] (ini : ι → β)
    (upd : ι → β → β) (l : List ι) (m0 : List (κ × β)) (P : κ → β → Prop)
    (hm0 : ∀ p ∈ m0, P p.1 p.2)
    (hini : ∀ t, P (kf t) (ini t))
    (hupd : ∀ t v, P (kf t) v → P (kf t) (upd t v)) :
    ∀ p ∈ dictFold kf ini upd l m0, P p.1 p.2 := by
  induction l generalizing m0 with
  | nil => exact hm0
  | cons t l ih =>
      rw [dictFold, List.foldl_cons]
      refine ih _ ?_
      intro p hp
      rcases mem_updateD _ _ _ _ _ hp with h | ⟨v0, rfl, h⟩
      · exact hm0 p h
      · rcases h with rfl | h
        · exact hupd t _ (hini t)
        · exact hupd t v0 (hm0 (kf t, v0) h)

theorem sum_map_updateD [DecidableEq κ] [AddCommMonoid M] (k : κ) (init : β)
    (f : β → β) (m : List (κ × β)) (g : β → M) (d : M)
    (hf : ∀ v, g (f v) = g v + d) (hinit : g init = 0) :
    ((updateD k init f m).map (fun e => g e.2)).sum
      = (m.map (fun e => g e.2)).sum + d := by
  induction m with
  | nil => simp [updateD, hf, hinit]
  | cons e rest ih =>
      obtain ⟨k1, v⟩ := e
      by_cases h : k1 = k
      · rw [updateD, if_pos h]
        simp only [List.map_cons, List.sum_cons, hf]
        exact add_right_comm _ _ _
      · rw [updateD, if_neg h]
        simp only [List.map_cons, List.sum_cons, ih]
        exact (add_assoc _ _ _).symm

theorem sum_map_dictFold (kf : ι → κ) [DecidableEq κ] [AddCommMonoid M]
    (ini : ι → β) (upd : ι → β → β) (l : List ι) (m0 : List (κ × β))
    (g : β → M) (δ : ι → M)
    (hupd : ∀ t v, g (upd t v) = g v + δ t) (hini : ∀ t, g (ini t) = 0) :
    ((dictFold kf ini upd l m0).map (fun e => g e.2)).sum
      = (m0.map (fun e => g e.2)).sum + (l.map δ).sum := by
  induction l generalizing m0 with
  | nil => simp [dictFold]
  | cons t l ih =>
      rw [dictFold, List.foldl_cons]
      rw [show ∀ m, List.foldl (fun m t => updateD (kf t) (ini t) (upd t) m) m l
            = dictFold kf ini upd l m from fun m => rfl]
      rw [ih, sum_map_updateD (kf t) (ini t) (upd t) m0 g (δ t) (hupd t) (hini t)]
      simp only [List.map_cons, List.sum_cons]
      abel

/-! ### Decomposition of the report loops -/

theorem dictFold_cons (kf : ι → κ) [DecidableEq κ] (ini : ι → β)
    (upd : ι → β → β) (t : ι) (l : List ι) (m0 : List (κ × β)) :
    dictFold kf ini upd (t :: l) m0
      = dictFold kf ini upd l (updateD (kf t) (ini t) (upd t) m0) := rfl

theorem taxFold_total_income (txns : List Transaction) (s : TaxState) :
    (txns.foldl taxStep s).total_income
      = s.total_income
        + ((txns.filter (fun t => t.taxKey == "income")).map (fun t => t.amount)).sum := by
  induction txns generalizing s with
  | nil => simp
  | cons t l ih =>
      rw [List.foldl_cons, List.filter_cons]
      by_cases h : t.taxKey = "income"
      · have hin : (t.taxKey == "income") = true := beq_iff_eq.mpr h
        simp only [taxStep, hin, if_true, ih, List.map_cons, List.sum_cons]
        ring
      · have hin : (t.taxKey == "income") = false := beq_eq_false_iff_ne.mpr h
        simp only [taxStep, hin, Bool.false_eq_true, if_false, ih]

theorem taxFold_total_expenses (txns : List Transaction) (s : TaxState) :
    (txns.foldl taxStep s).total_expenses
      = s.total_expenses
        + ((txns.filter (fun t => !(t.taxKey == "income"))).map
            (fun t => |t.amount|)).sum := by
  induction txns generalizing s with
  | nil => simp
  | cons t l ih =>
      rw [List.foldl_cons, List.filter_cons]
      by_cases h : t.taxKey = "income"
      · have hin : (t.taxKey == "income") = true := beq_iff_eq.mpr h
        simp only [taxStep, hin, if_true, ih, Bool.not_true, Bool.false_eq_true,
          if_false]
      · have hin : (t.taxKey == "income") = false := beq_eq_false_iff_ne.mpr h
        simp only [taxStep, hin, Bool.false_eq_true, if_false, ih, Bool.not_false,
          if_true, List.map_cons, List.sum_cons]
        ring

theorem taxFold_buckets (txns : List Transaction) (s : TaxState) :
    (txns.foldl taxStep s).by_tax_cat
      = dictFold (fun t => t.taxKey) taxIni taxUpd
          (txns.filter (fun t => !(t.taxKey == "income"))) s.by_tax_cat := by
  induction txns generalizing s with
  | nil => simp [dictFold]
  | cons t l ih =>
      rw [List.foldl_cons, List.filter_cons]
      by_cases h : t.taxKey = "income"
      · have hin : (t.taxKey == "income") = true := beq_iff_eq.mpr h
        simp only [taxStep, hin, if_true, ih, Bool.not_true, Bool.false_eq_true,
          if_false]
      · have hin : (t.taxKey == "income") = false := beq_eq_false_iff_ne.mpr h
        simp only [taxStep, hin, Bool.false_eq_true, if_false, ih, Bool.not_false,
          if_true, dictFold_cons]

theorem taxFold_pending (txns : List Transaction) (s : TaxState) :
    (txns.foldl taxStep s).pending_review_count
      = s.pending_review_count
        + (txns.filter (fun t => t.taxKey == "pending_review")).length := by
  induction txns generalizing s with
  | nil => simp
  | cons t l ih =>
      rw [List.foldl_cons, List.filter_cons]
      by_cases h : t.taxKey = "income"
      · have hin : (t.taxKey == "income") = true := beq_iff_eq.mpr h
        have hnp : (t.taxKey == "pending_review") = false :=
          beq_eq_false_iff_ne.mpr (by rw [h]; decide)
        simp only [taxStep, hin, if_true, ih, hnp, Bool.false_eq_true, if_false]
      · have hin : (t.taxKey == "income") = false := beq_eq_false_iff_ne.mpr h
        by_cases hp : t.taxKey = "pending_review"
        · have hpp : (t.taxKey == "pending_review") = true := beq_iff_eq.mpr hp
          simp only [taxStep, hin, Bool.false_eq_true, if_false, ih, hpp, if_true,
            List.length_cons]
          ring
        · have hnp : (t.taxKey == "pending_review") = false :=
            beq_eq_false_iff_ne.mpr hp
          simp only [taxStep, hin, Bool.false_eq_true, if_false, ih, hnp, add_zero]

theorem monthlyFold_total_income (txns : List Transaction) (s : MonthlyState) :
    (txns.foldl monthlyStep s).total_income
      = s.total_income
        + ((txns.filter (fun t => t.catType == "income")).map (fun t => t.amount)).sum := by
  induction txns generalizing s with
  | nil => simp
  | cons t l ih =>
      rw [List.foldl_cons, List.filter_cons]
      by_cases h : t.catType = "income"
      · have hin : (t.catType == "income") = true := beq_iff_eq.mpr h
        simp only [monthlyStep, hin, if_true, ih, List.map_cons, List.sum_cons]
        ring
      · have hin : (t.catType == "income") = false := beq_eq_false_iff_ne.mpr h
        simp only [monthlyStep, hin, Bool.false_eq_true, if_false, ih]

theorem monthlyFold_total_expenses (txns : List Transaction) (s : MonthlyState) :
    (txns.foldl monthlyStep s).total_expenses
      = s.total_expenses
        + ((txns.filter (fun t => !(t.catType == "income"))).map
            (fun t => |t.amount|)).sum := by
  induction txns generalizing s with
  | nil => simp
  | cons t l ih =>
      rw [List.foldl_cons, List.filter_cons]
      by_cases h : t.catType = "income"
      · have hin : (t.catType == "income") = true := beq_iff_eq.mpr h
        simp only [monthlyStep, hin, if_true, ih, Bool.not_true, Bool.false_eq_true,
          if_false]
      · have hin : (t.catType == "income") = false := beq_eq_false_iff_ne.mpr h
        simp only [monthlyStep, hin, Bool.false_eq_true, if_false, ih, Bool.not_false,
          if_true, List.map_cons, List.sum_cons]
        ring

theorem monthlyFold_cats (txns : List Transaction) (s : MonthlyState) :
    (txns.foldl monthlyStep s).category_totals
      = dictFold (fun t => t.monthKey) monthlyIni monthlyUpd txns s.category_totals := by
  induction txns generalizing s with
  | nil => rfl
  | cons t l ih =>
      rw [List.foldl_cons, dictFold_cons]
      simp only [monthlyStep, ih]

theorem totalsFold_fst (txns : List Transaction) (s : ℚ × ℚ) :
    (txns.foldl totalsStep s).1
      = s.1 + ((txns.filter (fun t => t.catType == "income")).map
          (fun t => t.amount)).sum := by
  induction txns generalizing s with
  | nil => simp
  | cons t l ih =>
      rw [List.foldl_cons, List.filter_cons]
      by_cases h : t.catType = "income"
      · have hin : (t.catType == "income") = true := beq_iff_eq.mpr h
        simp only [totalsStep, hin, if_true, ih, List.map_cons, List.sum_cons]
        ring
      · have hin : (t.catType == "income") = false := beq_eq_false_iff_ne.mpr h
        simp only [totalsStep, hin, Bool.false_eq_true, if_false, ih]

theorem totalsFold_snd (txns : List Transaction) (s : ℚ × ℚ) :
    (txns.foldl totalsStep s).2
      = s.2 + ((txns.filter (fun t => !(t.catType == "income"))).map
          (fun t => |t.amount|)).sum := by
  induction txns generalizing s with
  | nil => simp
  | cons t l ih =>
      rw [List.foldl_cons, List.filter_cons]
      by_cases h : t.catType = "income"
      · have hin : (t.catType == "income") = true := beq_iff_eq.mpr h
        simp only [totalsStep, hin, if_true, ih, Bool.not_true, Bool.false_eq_true,
          if_false]
      · have hin : (t.catType == "income") = false := beq_eq_false_iff_ne.mpr h
        simp only [totalsStep, hin, Bool.false_eq_true, if_false, ih, Bool.not_false,
          if_true, List.map_cons, List.sum_cons]
        ring

/-- The selection condition of the dashboard `cat_totals` loop
(`txn.category_id and txn.category_id in expense_cat_ids`, with Python
truthiness of the id). -/
def catSel (ids : List Nat) (t : Transaction) : Bool :=
  match t.category_id with
  | none => false
  | some cid => cid != 0 && ids.contains cid

theorem catTotalsFold (ids : List Nat) (txns : List Transaction)
    (m0 : List (Nat × ℚ)) :
    txns.foldl (catTotalsStep ids) m0
      = dictFold (fun t => t.category_id.getD 0) (fun _ => (0 : ℚ))
          (fun t v => v + |t.amount|) (txns.filter (catSel ids)) m0 := by
  induction txns generalizing m0 with
  | nil => rfl
  | cons t l ih =>
      rw [List.foldl_cons, List.filter_cons]
      cases hc : t.category_id with
      | none =>
          simp only [catTotalsStep, hc, catSel, Bool.false_eq_true, if_false, ih]
      | some cid =>
          by_cases hcond : (cid != 0 && ids.contains cid) = true
          · simp only [catTotalsStep, hc, catSel, hcond, if_true, ih, dictFold_cons,
              Option.getD_some]
          · have hcond2 : (cid != 0 && ids.contains cid) = false :=
              Bool.not_eq_true _ ▸ (by simpa using hcond)
            simp only [catTotalsStep, hc, catSel, hcond2, Bool.false_eq_true,
              if_false, ih]

theorem trendFold (start : PyDate) (txns : List Transaction)
    (m0 : List ((Int × Nat) × TrendCell)) :
    txns.foldl (trendStep start) m0
      = dictFold (fun t => (t.date.year, t.date.month)) trendIni trendUpd
          (txns.filter (fun t => !(dateLT t.date start))) m0 := by
  induction txns generalizing m0 with
  | nil => rfl
  | cons t l ih =>
      rw [List.foldl_cons, List.filter_cons]
      by_cases hd : dateLT t.date start = true
      · simp only [trendStep, hd, if_true, ih, Bool.not_true, Bool.false_eq_true,
          if_false]
      · have hd2 : dateLT t.date start = false := by
          cases h2 : dateLT t.date start
          · rfl
          · exact absurd h2 hd
        simp only [trendStep, hd2, Bool.false_eq_true, if_false, ih, Bool.not_false,
          if_true, dictFold_cons]

theorem breakdownFold (txns : List Transaction)
    (m0 : List ((Int × Nat) × MonthBucket)) :
    txns.foldl breakdownStep m0
      = dictFold (fun t => (t.date.year, t.date.month)) breakIni breakUpd txns m0 := by
  induction txns generalizing m0 with
  | nil => rfl
  | cons t l ih =>
      rw [List.foldl_cons, dictFold_cons]
      simp only [breakdownStep, ih]

/-! ### Per-field characterization of the accumulated bucket values -/

theorem taxChain_gross (rest : List Transaction) (b : TaxBucket) :
    (rest.foldl (fun w t => taxUpd t w) b).gross_amount
      = (rest.map (fun t => |t.amount|)).foldl
          (fun a q => round2 (a + q)) b.gross_amount := by
  induction rest generalizing b with
  | nil => rfl
  | cons t l ih =>
      rw [List.foldl_cons, ih]
      simp only [taxUpd, List.map_cons, List.foldl_cons]

theorem taxChain_ded (rest : List Transaction) (b : TaxBucket) :
    (rest.foldl (fun w t => taxUpd t w) b).deductible_amount
      = (rest.map (fun t => round2 (|t.amount| * taxFactor t.taxKey))).foldl
          (fun a q => round2 (a + q)) b.deductible_amount := by
  induction rest generalizing b with
  | nil => rfl
  | cons t l ih =>
      rw [List.foldl_cons, ih]
      simp only [taxUpd, List.map_cons, List.foldl_cons]

theorem taxChain_count (rest : List Transaction) (b : TaxBucket) :
    (rest.foldl (fun w t => taxUpd t w) b).transaction_count
      = b.transaction_count + rest.length := by
  induction rest generalizing b with
  | nil => simp
  | cons t l ih =>
      rw [List.foldl_cons, ih]
      simp only [taxUpd, List.length_cons]
      ring

theorem taxChain_rate (rest : List Transaction) (b : TaxBucket) :
    (rest.foldl (fun w t => taxUpd t w) b).deductibility_rate
      = b.deductibility_rate := by
  induction rest generalizing b with
  | nil => rfl
  | cons t l ih =>
      rw [List.foldl_cons, ih]
      rfl

theorem monthChain_amount (rest : List Transaction) (b : MonthCatRow) :
    (rest.foldl (fun w t => monthlyUpd t w) b).amount
      = (rest.map (fun t => |t.amount|)).foldl
          (fun a q => round2 (a + q)) b.amount := by
  induction rest generalizing b with
  | nil => rfl
  | cons t l ih =>
      rw [List.foldl_cons, ih]
      simp only [monthlyUpd, List.map_cons, List.foldl_cons]

theorem monthChain_count (rest : List Transaction) (b : MonthCatRow) :
    (rest.foldl (fun w t => monthlyUpd t w) b).count = b.count + rest.length := by
  induction rest generalizing b with
  | nil => simp
  | cons t l ih =>
      rw [List.foldl_cons, ih]
      simp only [monthlyUpd, List.length_cons]
      ring

theorem monthChain_name (rest : List Transaction) (b : MonthCatRow) :
    (rest.foldl (fun w t => monthlyUpd t w) b).category_name = b.category_name := by
  induction rest generalizing b with
  | nil => rfl
  | cons t l ih =>
      rw [List.foldl_cons, ih]
      rfl

theorem monthChain_id (rest : List Transaction) (b : MonthCatRow) :
    (rest.foldl (fun w t => monthlyUpd t w) b).category_id = b.category_id := by
  induction rest generalizing b with
  | nil => rfl
  | cons t l ih =>
      rw [List.foldl_cons, ih]
      rfl

theorem monthChain_type (rest : List Transaction) (b : MonthCatRow) :
    (rest.foldl (fun w t => monthlyUpd t w) b).type = b.type := by
  induction rest generalizing b with
  | nil => rfl
  | cons t l ih =>
      rw [List.foldl_cons, ih]
      rfl

theorem trendChain_income (rest : List Transaction) (c : TrendCell) :
    (rest.foldl (fun w t => trendUpd t w) c).income
      = ((rest.filter (fun t => t.catType == "income")).map (fun t => t.amount)).foldl
          (fun a q => round2 (a + q)) c.income := by
  induction rest generalizing c with
  | nil => rfl
  | cons t l ih =>
      rw [List.foldl_cons, ih, List.filter_cons]
      by_cases h : t.catType = "income"
      · have hin : (t.catType == "income") = true := beq_iff_eq.mpr h
        simp only [trendUpd, hin, if_true, List.map_cons, List.foldl_cons]
      · have hin : (t.catType == "income") = false := beq_eq_false_iff_ne.mpr h
        simp only [trendUpd, hin, Bool.false_eq_true, if_false]

theorem trendChain_expenses (rest : List Transaction) (c : TrendCell) :
    (rest.foldl (fun w t => trendUpd t w) c).expenses
      = ((rest.filter (fun t => !(t.catType == "income"))).map
          (fun t => |t.amount|)).foldl (fun a q => round2 (a + q)) c.expenses := by
  induction rest generalizing c with
  | nil => rfl
  | cons t l ih =>
      rw [List.foldl_cons, ih, List.filter_cons]
      by_cases h : t.catType = "income"
      · have hin : (t.catType == "income") = true := beq_iff_eq.mpr h
        simp only [trendUpd, hin, if_true, Bool.not_true, Bool.false_eq_true,
          if_false]
      · have hin : (t.catType == "income") = false := beq_eq_false_iff_ne.mpr h
        simp only [trendUpd, hin, Bool.false_eq_true, if_false, Bool.not_false,
          if_true, List.map_cons, List.foldl_cons]

theorem trendChain_year (rest : List Transaction) (c : TrendCell) :
    (rest.foldl (fun w t => trendUpd t w) c).year = c.year := by
  induction rest generalizing c with
  | nil => rfl
  | cons t l ih =>
      rw [List.foldl_cons, ih]
      simp only [trendUpd]
      split <;> rfl

theorem trendChain_month (rest : List Transaction) (c : TrendCell) :
    (rest.foldl (fun w t => trendUpd t w) c).month = c.month := by
  induction rest generalizing c with
  | nil => rfl
  | cons t l ih =>
      rw [List.foldl_cons, ih]
      simp only [trendUpd]
      split <;> rfl

theorem breakChain_amount (rest : List Transaction) (b : MonthBucket) :
    (rest.foldl (fun w t => breakUpd t w) b).amount
      = (rest.map (fun t => |t.amount|)).foldl
          (fun a q => round2 (a + q)) b.amount := by
  induction rest generalizing b with
  | nil => rfl
  | cons t l ih =>
      rw [List.foldl_cons, ih]
      simp only [breakUpd, List.map_cons, List.foldl_cons]

theorem breakChain_count (rest : List Transaction) (b : MonthBucket) :
    (rest.foldl (fun w t => breakUpd t w) b).count = b.count + rest.length := by
  induction rest generalizing b with
  | nil => simp
  | cons t l ih =>
      rw [List.foldl_cons, ih]
      simp only [breakUpd, List.length_cons]
      ring

theorem breakChain_year (rest : List Transaction) (b : MonthBucket) :
    (rest.foldl (fun w t => breakUpd t w) b).year = b.year := by
  induction rest generalizing b with
  | nil => rfl
  | cons t l ih =>
      rw [List.foldl_cons, ih]
      rfl

theorem breakChain_month (rest : List Transaction) (b : MonthBucket) :
    (rest.foldl (fun w t => breakUpd t w) b).month = b.month := by
  induction rest generalizing b with
  | nil => rfl
  | cons t l ih =>
      rw [List.foldl_cons, ih]
      rfl

theorem foldl_addAbs (rest : List Transaction) (v : ℚ) :
    rest.foldl (fun w t => w + |t.amount|) v
      = v + (rest.map (fun t => |t.amount|)).sum := by
  induction rest generalizing v with
  | nil => simp
  | cons t l ih =>
      simp only [List.foldl_cons, List.map_cons, List.sum_cons, ih]
      ring

/-! ### Specification of the classifier winner -/

/-- The highest keyword match count over a table. -/
def maxCount (tbl : List (String × List String)) (text : String) : Nat :=
  (tbl.map (fun e => countKw text e.2)).foldr max 0

/-- Modelled from the spec: the winner is the category with the strictly
highest match count; ties are broken by first-seen order in the keyword
table's iteration order; when the best count is 0 the result is `(0, "")`. -/
def bestSpec (tbl : List (String × List String)) (text : String) : Nat × String :=
  let M := maxCount tbl text
  if M = 0 then (0, "")
  else
    match tbl.find? (fun e => countKw text e.2 == M) with
    | some e => (M, e.1)
    | none => (0, "")

theorem countKw_le_maxCount (tbl : List (String × List String)) (text : String) :
    ∀ e ∈ tbl, countKw text e.2 ≤ maxCount tbl text := by
  induction tbl with
  | nil => intro e he; cases he
  | cons e2 tbl ih =>
      intro e he
      rcases List.mem_cons.mp he with rfl | he2
      · exact Nat.le_max_left _ _
      · exact le_trans (ih e he2) (Nat.le_max_right _ _)

theorem classifyFold_le (text : String) (tbl : List (String × List String))
    (b : Nat × String) (hle : ∀ e ∈ tbl, countKw text e.2 ≤ b.1) :
    tbl.foldl (fun best e =>
      let c := countKw text e.2
      if best.1 < c then (c, e.1) else best) b = b := by
  induction tbl with
  | nil => rfl
  | cons e tbl ih =>
      rw [List.foldl_cons]
      have he : countKw text e.2 ≤ b.1 := hle e (List.mem_cons_self _ _)
      simp only [if_neg (not_lt.mpr he)]
      exact ih fun e2 he2 => hle e2 (List.mem_cons_of_mem _ he2)

theorem classifyFold_gt (text : String) (tbl : List (String × List String))
    (b : Nat × String) (hgt : b.1 < maxCount tbl text) :
    ∃ e, tbl.find? (fun e2 => countKw text e2.2 == maxCount tbl text) = some e
      ∧ countKw text e.2 = maxCount tbl text
      ∧ tbl.foldl (fun best e =>
          let c := countKw text e.2
          if best.1 < c then (c, e.1) else best) b = (maxCount tbl text, e.1) := by
  induction tbl generalizing b with
  | nil => exact absurd hgt (by simp [maxCount])
  | cons e tbl ih =>
      have hM : maxCount (e :: tbl) text
          = max (countKw text e.2) (maxCount tbl text) := rfl
      rw [List.foldl_cons]
      by_cases hbc : b.1 < countKw text e.2
      · simp only [if_pos hbc]
        by_cases hMr : maxCount tbl text ≤ countKw text e.2
        · have hMe : maxCount (e :: tbl) text = countKw text e.2 := by
            rw [hM]; exact Nat.max_eq_left hMr
          refine ⟨e, ?_, by rw [hMe], ?_⟩
          · rw [List.find?_cons_of_pos]
            simp [hMe]
          · rw [hMe]
            exact classifyFold_le text tbl (countKw text e.2, e.1)
              (fun e2 he2 => le_trans (countKw_le_maxCount tbl text e2 he2) hMr)
        · push_neg at hMr
          have hMe : maxCount (e :: tbl) text = maxCount tbl text := by
            rw [hM]; exact Nat.max_eq_right (le_of_lt hMr)
          obtain ⟨e2, hf, hc, hfold⟩ := ih (countKw text e.2, e.1) hMr
          refine ⟨e2, ?_, by rw [hMe]; exact hc, by rw [hMe]; exact hfold⟩
          rw [List.find?_cons_of_neg]
          · rw [hMe]; exact hf
          · rw [hMe]
            simp only [beq_iff_eq]
            exact Nat.ne_of_lt hMr
      · push_neg at hbc
        simp only [if_neg (not_lt.mpr hbc)]
        have hMr : b.1 < maxCount tbl text := by
          rw [hM] at hgt
          rcases lt_max_iff.mp hgt with h2 | h2
          · exact absurd h2 (not_lt.mpr hbc)
          · exact h2
        have hMe : maxCount (e :: tbl) text = maxCount tbl text := by
          rw [hM]
          exact Nat.max_eq_right
            (le_trans (le_trans hbc (le_of_lt hMr)) (le_refl _))
        obtain ⟨e2, hf, hc, hfold⟩ := ih b hMr
        refine ⟨e2, ?_, by rw [hMe]; exact hc, by rw [hMe]; exact hfold⟩
        rw [List.find?_cons_of_neg]
        · rw [hMe]; exact hf
        · rw [hMe]
          simp only [beq_iff_eq]
          exact Nat.ne_of_lt (lt_of_le_of_lt hbc hMr)

/-! ### Small numeric and list helpers -/

theorem round2_zero : round2 0 = 0 := round2_of_isCents isCents_zero

theorem isCents_abs {q : ℚ} (h : IsCents q) : IsCents |q| := by
  obtain ⟨n, rfl⟩ := h
  refine ⟨|n|, ?_⟩
  rw [abs_div]
  push_cast
  norm_num

theorem isCents_sum (l : List ℚ) (h : ∀ q ∈ l, IsCents q) : IsCents l.sum := by
  induction l with
  | nil => exact isCents_zero
  | cons x xs ih =>
      rw [List.sum_cons]
      exact isCents_add (h x (List.mem_cons_self x xs))
        (ih fun q hq => h q (List.mem_cons_of_mem x hq))

theorem sum_map_ones (l : List α) : (l.map (fun _ => (1 : ℕ))).sum = l.length := by
  induction l with
  | nil => rfl
  | cons x xs ih => simp [ih]; omega

theorem sum_map_add_const (l : List α) (f : α → ℚ) (c : ℚ) :
    (l.map (fun x => f x + c)).sum = (l.map f).sum + l.length * c := by
  induction l with
  | nil => simp
  | cons x xs ih =>
      simp only [List.map_cons, List.sum_cons, ih, List.length_cons]
      push_cast
      ring

theorem sum_map_mul_const (l : List α) (f : α → ℚ) (c : ℚ) :
    (l.map (fun x => f x * c)).sum = (l.map f).sum * c := by
  induction l with
  | nil => simp
  | cons x xs ih =>
      simp only [List.map_cons, List.sum_cons, ih]
      ring

theorem sum_map_take_le (l : List α) (n : Nat) (f : α → ℚ)
    (h : ∀ x ∈ l, 0 ≤ f x) :
    ((l.take n).map f).sum ≤ (l.map f).sum := by
  conv_rhs => rw [← List.take_append_drop n l]
  rw [List.map_append, List.sum_append]
  have : 0 ≤ ((l.drop n).map f).sum := by
    apply List.sum_nonneg
    intro q hq
    obtain ⟨x, hx, rfl⟩ := List.mem_map.mp hq
    exact h x (List.mem_of_mem_drop hx)
  linarith

theorem sum_filter_mono (l : List α) (p q : α → Bool) (f : α → ℚ)
    (hpq : ∀ x ∈ l, p x = true → q x = true) (hf : ∀ x ∈ l, 0 ≤ f x) :
    ((l.filter p).map f).sum ≤ ((l.filter q).map f).sum := by
  induction l with
  | nil => simp
  | cons x xs ih =>
      have ih2 := ih (fun y hy => hpq y (List.mem_cons_of_mem x hy))
        (fun y hy => hf y (List.mem_cons_of_mem x hy))
      rw [List.filter_cons, List.filter_cons]
      by_cases hp : p x = true
      · rw [if_pos hp, if_pos (hpq x (List.mem_cons_self x xs) hp)]
        simp only [List.map_cons, List.sum_cons]
        linarith
      · rw [if_neg (by simp [Bool.not_eq_true] at hp ⊢; exact hp)]
        by_cases hq : q x = true
        · rw [if_pos hq]
          simp only [List.map_cons, List.sum_cons]
          have := hf x (List.mem_cons_self x xs)
          linarith
        · rw [if_neg (by simp [Bool.not_eq_true] at hq ⊢; exact hq)]
          exact ih2

/-! ### Concrete instances used in counterexamples and witnesses -/

/-- An expense category classified `meals_entertainment` (factor 0.5). -/
def mealsCat : Category := ⟨1, "Meals", "expense", some "meals_entertainment"⟩

/-- A meals transaction of -0.25 (exactly representable in binary, so the
Python computation agrees with the exact model). -/
def txnA : Transaction := ⟨1, ⟨2025, 3, 10⟩, "lunch a", -(1/4), none, some mealsCat⟩

/-- A second meals transaction of -0.25. -/
def txnB : Transaction := ⟨2, ⟨2025, 3, 11⟩, "lunch b", -(1/4), none, some mealsCat⟩

/-- A meals transaction of -0.75. -/
def txnC : Transaction := ⟨1, ⟨2025, 3, 10⟩, "big a", -(3/4), none, some mealsCat⟩

/-- A second meals transaction of -0.75. -/
def txnD : Transaction := ⟨2, ⟨2025, 3, 11⟩, "big b", -(3/4), none, some mealsCat⟩

/-- A stored category literally named `Uncategorized`. -/
def uncatCat : Category := ⟨7, "Uncategorized", "expense", none⟩

/-- A transaction with no resolved category. -/
def txnU1 : Transaction := ⟨1, ⟨2025, 5, 2⟩, "no cat", -10, none, none⟩

/-- A transaction in the stored category named `Uncategorized`. -/
def txnU2 : Transaction := ⟨2, ⟨2025, 5, 3⟩, "stored uncat", -5, none, some uncatCat⟩

/-- Expense category `A`. -/
def catA : Category := ⟨1, "A", "expense", none⟩

/-- Expense category `B`. -/
def catB : Category := ⟨2, "B", "expense", none⟩

/-- A transaction of -10 in category `A`. -/
def txnP : Transaction := ⟨1, ⟨2025, 3, 5⟩, "a", -10, none, some catA⟩

/-- A transaction of -10 in category `B` (same absolute amount: a tie). -/
def txnQ : Transaction := ⟨2, ⟨2025, 3, 6⟩, "b", -10, none, some catB⟩

/-- A transaction dated 2024-01-15, 23 months before 2025-12-15. -/
def oldTxn : Transaction := ⟨1, ⟨2024, 1, 15⟩, "old", -50, none, none⟩

/-- Five expense categories for the percentage counterexample. -/
def dashCats : List Category :=
  [⟨1, "c1", "expense", none⟩, ⟨2, "c2", "expense", none⟩,
   ⟨3, "c3", "expense", none⟩, ⟨4, "c4", "expense", none⟩,
   ⟨5, "c5", "expense", none⟩]

/-- Five expense transactions of -20.06, -20.06, -20.06, -19.96, -19.86
(total 100.00): the rounded percentages are 20.1, 20.1, 20.1, 20.0, 19.9,
summing to 100.2.  Verified against CPython: the binary floating point run
produces the same five rounded percentages. -/
def dashTxns : List Transaction :=
  [⟨1, ⟨2025, 6, 1⟩, "x", -(2006/100), none, some ⟨1, "c1", "expense", none⟩⟩,
   ⟨2, ⟨2025, 6, 2⟩, "x", -(2006/100), none, some ⟨2, "c2", "expense", none⟩⟩,
   ⟨3, ⟨2025, 6, 3⟩, "x", -(2006/100), none, some ⟨3, "c3", "expense", none⟩⟩,
   ⟨4, ⟨2025, 6, 4⟩, "x", -(1996/100), none, some ⟨4, "c4", "expense", none⟩⟩,
   ⟨5, ⟨2025, 6, 5⟩, "x", -(1986/100), none, some ⟨5, "c5", "expense", none⟩⟩]

/-! ### Field-level characterizations of the reports -/

theorem tax_total_income_eq (year : Int) (txns : List Transaction) :
    (tax_summary_report year txns).total_income
      = round2 (((txns.filter (inTaxYear year)).filter
          (fun t => t.taxKey == "income")).map (fun t => t.amount)).sum := by
  have h : (tax_summary_report year txns).total_income
      = round2 ((txns.filter (inTaxYear year)).foldl taxStep ⟨0, 0, [], 0⟩).total_income := rfl
  rw [h, taxFold_total_income]
  norm_num

theorem tax_total_expenses_eq (year : Int) (txns : List Transaction) :
    (tax_summary_report year txns).total_expenses
      = round2 (((txns.filter (inTaxYear year)).filter
          (fun t => !(t.taxKey == "income"))).map (fun t => |t.amount|)).sum := by
  have h : (tax_summary_report year txns).total_expenses
      = round2 ((txns.filter (inTaxYear year)).foldl taxStep ⟨0, 0, [], 0⟩).total_expenses := rfl
  rw [h, taxFold_total_expenses]
  norm_num

theorem tax_pending_eq (year : Int) (txns : List Transaction) :
    (tax_summary_report year txns).transactions_pending_review
      = ((txns.filter (inTaxYear year)).filter
          (fun t => t.taxKey == "pending_review")).length := by
  have h : (tax_summary_report year txns).transactions_pending_review
      = ((txns.filter (inTaxYear year)).foldl taxStep ⟨0, 0, [], 0⟩).pending_review_count := rfl
  rw [h, taxFold_pending]
  norm_num

theorem tax_buckets_eq (year : Int) (txns : List Transaction) :
    (tax_summary_report year txns).by_tax_category
      = dictFold (fun t => t.taxKey) taxIni taxUpd
          ((txns.filter (inTaxYear year)).filter (fun t => !(t.taxKey == "income"))) [] := by
  have h : (tax_summary_report year txns).by_tax_category
      = ((txns.filter (inTaxYear year)).foldl taxStep ⟨0, 0, [], 0⟩).by_tax_cat := rfl
  rw [h, taxFold_buckets]

theorem monthly_total_income_eq (year : Int) (month : Nat) (txns : List Transaction) :
    (monthly_report year month txns).total_income
      = round2 (((txns.filter (inMonth year month)).filter
          (fun t => t.catType == "income")).map (fun t => t.amount)).sum := by
  have h : (monthly_report year month txns).total_income
      = round2 ((txns.filter (inMonth year month)).foldl monthlyStep ⟨0, 0, []⟩).total_income := rfl
  rw [h, monthlyFold_total_income]
  norm_num

theorem monthly_total_expenses_eq (year : Int) (month : Nat) (txns : List Transaction) :
    (monthly_report year month txns).total_expenses
      = round2 (((txns.filter (inMonth year month)).filter
          (fun t => !(t.catType == "income"))).map (fun t => |t.amount|)).sum := by
  have h : (monthly_report year month txns).total_expenses
      = round2 ((txns.filter (inMonth year month)).foldl monthlyStep ⟨0, 0, []⟩).total_expenses := rfl
  rw [h, monthlyFold_total_expenses]
  norm_num

theorem monthly_net_eq (year : Int) (month : Nat) (txns : List Transaction) :
    (monthly_report year month txns).net
      = round2 ((((txns.filter (inMonth year month)).filter
            (fun t => t.catType == "income")).map (fun t => t.amount)).sum
          - (((txns.filter (inMonth year month)).filter
            (fun t => !(t.catType == "income"))).map (fun t => |t.amount|)).sum) := by
  have h : (monthly_report year month txns).net
      = round2 (((txns.filter (inMonth year month)).foldl monthlyStep ⟨0, 0, []⟩).total_income
          - ((txns.filter (inMonth year month)).foldl monthlyStep ⟨0, 0, []⟩).total_expenses) := rfl
  rw [h, monthlyFold_total_income, monthlyFold_total_expenses]
  norm_num

theorem monthly_count_eq (year : Int) (month : Nat) (txns : List Transaction) :
    (monthly_report year month txns).transaction_count
      = (txns.filter (inMonth year month)).length := rfl

theorem dash_total_income_eq (cats : List Category) (txns : List Transaction)
    (today : PyDate) :
    (get_dashboard cats txns today).total_income
      = round2 ((txns.filter (fun t => t.catType == "income")).map
          (fun t => t.amount)).sum := by
  have h : (get_dashboard cats txns today).total_income
      = round2 (txns.foldl totalsStep (0, 0)).1 := rfl
  rw [h, totalsFold_fst]
  norm_num

theorem dash_total_expenses_eq (cats : List Category) (txns : List Transaction)
    (today : PyDate) :
    (get_dashboard cats txns today).total_expenses
      = round2 ((txns.filter (fun t => !(t.catType == "income"))).map
          (fun t => |t.amount|)).sum := by
  have h : (get_dashboard cats txns today).total_expenses
      = round2 (txns.foldl totalsStep (0, 0)).2 := rfl
  rw [h, totalsFold_snd]
  norm_num

theorem dash_net_eq (cats : List Category) (txns : List Transaction) (today : PyDate) :
    (get_dashboard cats txns today).net_income
      = round2 (((txns.filter (fun t => t.catType == "income")).map
            (fun t => t.amount)).sum
          - ((txns.filter (fun t => !(t.catType == "income"))).map
            (fun t => |t.amount|)).sum) := by
  have h : (get_dashboard cats txns today).net_income
      = round2 ((txns.foldl totalsStep (0, 0)).1 - (txns.foldl totalsStep (0, 0)).2) := rfl
  rw [h, totalsFold_fst, totalsFold_snd]
  norm_num

theorem dash_unclassified_eq (cats : List Category) (txns : List Transaction)
    (today : PyDate) :
    (get_dashboard cats txns today).unclassified_count
      = (txns.filter (fun t => t.category_obj.isNone)).length := rfl

theorem tax_net_eq (year : Int) (txns : List Transaction) :
    (tax_summary_report year txns).net_income
      = round2 ((((txns.filter (inTaxYear year)).filter
            (fun t => t.taxKey == "income")).map (fun t => t.amount)).sum
          - (((txns.filter (inTaxYear year)).filter
            (fun t => !(t.taxKey == "income"))).map (fun t => |t.amount|)).sum) := by
  have h : (tax_summary_report year txns).net_income
      = round2 (((txns.filter (inTaxYear year)).foldl taxStep ⟨0, 0, [], 0⟩).total_income
          - ((txns.filter (inTaxYear year)).foldl taxStep ⟨0, 0, [], 0⟩).total_expenses) := rfl
  rw [h, taxFold_total_income, taxFold_total_expenses]
  norm_num

theorem tax_unclassified_eq (year : Int) (txns : List Transaction) :
    (tax_summary_report year txns).unclassified_count
      = ((txns.filter (inTaxYear year)).filter
          (fun t => t.category_obj.isNone)).length := rfl

/-- Every tax bucket looked up by key is exactly the rounded accumulation
over the in-year, non-income transactions with that tax key. -/
theorem tax_bucket_char (year : Int) (txns : List Transaction) (k : String)
    (b : TaxBucket)
    (hb : lookupD k (tax_summary_report year txns).by_tax_category = some b) :
    b.gross_amount
      = ((((txns.filter (inTaxYear year)).filter
            (fun t => !(t.taxKey == "income"))).filter
            (fun t => decide (t.taxKey = k))).map (fun t => |t.amount|)).foldl
          (fun a q => round2 (a + q)) 0
    ∧ b.deductible_amount
      = ((((txns.filter (inTaxYear year)).filter
            (fun t => !(t.taxKey == "income"))).filter
            (fun t => decide (t.taxKey = k))).map
            (fun t => round2 (|t.amount| * taxFactor t.taxKey))).foldl
          (fun a q => round2 (a + q)) 0
    ∧ b.transaction_count
      = (((txns.filter (inTaxYear year)).filter
            (fun t => !(t.taxKey == "income"))).filter
            (fun t => decide (t.taxKey = k))).length
    ∧ (((txns.filter (inTaxYear year)).filter
          (fun t => !(t.taxKey == "income"))).filter
          (fun t => decide (t.taxKey = k))) ≠ [] := by
  rw [tax_buckets_eq, lookupD_dictFold] at hb
  rw [show lookupD k ([] : List (String × TaxBucket)) = none from rfl] at hb
  rw [foldl_optStep_none] at hb
  cases hts : (((txns.filter (inTaxYear year)).filter
      (fun t => !(t.taxKey == "income"))).filter
      (fun t => decide (t.taxKey = k))) with
  | nil =>
      rw [hts] at hb
      cases hb
  | cons t0 rest =>
      rw [hts] at hb
      injection hb with hb2
      subst hb2
      refine ⟨?_, ?_, ?_, by simp⟩
      · rw [taxChain_gross, List.map_cons, List.foldl_cons]
        rfl
      · rw [taxChain_ded, List.map_cons, List.foldl_cons]
        rfl
      · rw [taxChain_count, List.length_cons]
        have h1 : (taxUpd t0 (taxIni t0)).transaction_count = 1 := rfl
        rw [h1]
        omega

theorem monthly_cats_eq (year : Int) (month : Nat) (txns : List Transaction) :
    (monthly_report year month txns).by_category
      = stSort (fun a b => decide (b.amount ≤ a.amount))
          ((dictFold (fun t => t.monthKey) monthlyIni monthlyUpd
            (txns.filter (inMonth year month)) []).map Prod.snd) := by
  have h : (monthly_report year month txns).by_category
      = stSort (fun a b => decide (b.amount ≤ a.amount))
          ((((txns.filter (inMonth year month)).foldl monthlyStep
            ⟨0, 0, []⟩).category_totals).map Prod.snd) := rfl
  rw [h, monthlyFold_cats]

theorem monthly_dict_name (year : Int) (month : Nat) (txns : List Transaction) :
    ∀ p ∈ dictFold (fun t => t.monthKey) monthlyIni monthlyUpd
        (txns.filter (inMonth year month)) [],
      p.2.category_name = p.1 := by
  exact mem_dictFold_invariant (fun t => t.monthKey) monthlyIni monthlyUpd
    (txns.filter (inMonth year month)) []
    (fun k (v : MonthCatRow) => v.category_name = k)
    (fun p hp => by cases hp) (fun t => rfl) (fun t v h => h)

theorem monthly_dict_nodup (year : Int) (month : Nat) (txns : List Transaction) :
    ((dictFold (fun t => t.monthKey) monthlyIni monthlyUpd
        (txns.filter (inMonth year month)) []).map Prod.fst).Nodup :=
  nodup_keys_dictFold _ _ _ _ _ (by simp)

theorem monthly_row_lookup (year : Int) (month : Nat) (txns : List Transaction)
    (row : MonthCatRow)
    (hrow : row ∈ (monthly_report year month txns).by_category) :
    lookupD row.category_name
      (dictFold (fun t => t.monthKey) monthlyIni monthlyUpd
        (txns.filter (inMonth year month)) []) = some row := by
  rw [monthly_cats_eq] at hrow
  have h2 : row ∈ (dictFold (fun t => t.monthKey) monthlyIni monthlyUpd
      (txns.filter (inMonth year month)) []).map Prod.snd :=
    (stSort_perm _ _).mem_iff.mp hrow
  obtain ⟨p, hp, hp2⟩ := List.mem_map.mp h2
  have hk : p.2.category_name = p.1 := monthly_dict_name year month txns p hp
  have hmem : (row.category_name, row) ∈ dictFold (fun t => t.monthKey) monthlyIni
      monthlyUpd (txns.filter (inMonth year month)) [] := by
    have : p = (row.category_name, row) := by
      obtain ⟨k, v⟩ := p
      simp only at hp2 hk
      rw [hp2] at hk
      rw [← hk, hp2]
    rw [← this]
    exact hp
  exact lookupD_of_mem_nodup hmem (monthly_dict_nodup year month txns)

/-- Every `by_category` row of the monthly report is exactly the rounded
accumulation over the in-month transactions whose (defaulted) grouping key
equals the row's `category_name`. -/
theorem monthly_row_char (year : Int) (month : Nat) (txns : List Transaction)
    (row : MonthCatRow)
    (hrow : row ∈ (monthly_report year month txns).by_category) :
    row.amount
      = (((txns.filter (inMonth year month)).filter
          (fun t => decide (t.monthKey = row.category_name))).map
          (fun t => |t.amount|)).foldl (fun a q => round2 (a + q)) 0
    ∧ row.count
      = ((txns.filter (inMonth year month)).filter
          (fun t => decide (t.monthKey = row.category_name))).length
    ∧ ((txns.filter (inMonth year month)).filter
          (fun t => decide (t.monthKey = row.category_name))) ≠ [] := by
  have hb := monthly_row_lookup year month txns row hrow
  rw [lookupD_dictFold] at hb
  rw [show lookupD row.category_name ([] : List (String × MonthCatRow)) = none from rfl] at hb
  rw [foldl_optStep_none] at hb
  cases hts : ((txns.filter (inMonth year month)).filter
      (fun t => decide (t.monthKey = row.category_name))) with
  | nil =>
      rw [hts] at hb
      cases hb
  | cons t0 rest =>
      rw [hts] at hb
      injection hb with hb2
      rw [← hb2]
      refine ⟨?_, ?_, by simp⟩
      · rw [monthChain_amount, List.map_cons, List.foldl_cons]
        rfl
      · rw [monthChain_count, List.length_cons]
        have h1 : (monthlyUpd t0 (monthlyIni t0)).count = 1 := rfl
        rw [h1]
        omega

theorem trend_cells_eq (cats : List Category) (txns : List Transaction)
    (today : PyDate) :
    (get_dashboard cats txns today).monthly_trend
      = (stSort (fun a b => ymLE (a.year, a.month) (b.year, b.month))
          ((dictFold (fun t => (t.date.year, t.date.month)) trendIni trendUpd
            (txns.filter (fun t => !(dateLT t.date (trendStart today)))) []).map
            Prod.snd)).map
          (fun c => { year := c.year, month := c.month, income := c.income,
                      expenses := c.expenses, net := round2 (c.income - c.expenses) }) := by
  have h : (get_dashboard cats txns today).monthly_trend
      = (stSort (fun a b => ymLE (a.year, a.month) (b.year, b.month))
          ((txns.foldl (trendStep (trendStart today)) []).map Prod.snd)).map
          (fun c => { year := c.year, month := c.month, income := c.income,
                      expenses := c.expenses, net := round2 (c.income - c.expenses) }) := rfl
  rw [h, trendFold]

theorem trend_dict_ym (start : PyDate) (txns : List Transaction) :
    ∀ p ∈ dictFold (fun t => (t.date.year, t.date.month)) trendIni trendUpd
        (txns.filter (fun t => !(dateLT t.date start))) [],
      (p.2.year, p.2.month) = p.1 := by
  exact mem_dictFold_invariant (fun t => (t.date.year, t.date.month)) trendIni trendUpd
    (txns.filter (fun t => !(dateLT t.date start))) []
    (fun k (c : TrendCell) => (c.year, c.month) = k)
    (fun p hp => by cases hp) (fun t => rfl)
    (fun t c h => by
      simp only [trendUpd]
      split
      · exact h
      · exact h)

theorem trend_dict_nodup (start : PyDate) (txns : List Transaction) :
    ((dictFold (fun t => (t.date.year, t.date.month)) trendIni trendUpd
        (txns.filter (fun t => !(dateLT t.date start))) []).map Prod.fst).Nodup :=
  nodup_keys_dictFold _ _ _ _ _ (by simp)

/-- Every `monthly_trend` row of the dashboard is exactly the rounded
accumulation over the non-skipped transactions of its `(year, month)`
bucket; the bucket is nonempty. -/
theorem trend_row_char (cats : List Category) (txns : List Transaction)
    (today : PyDate) (r : TrendRow)
    (hr : r ∈ (get_dashboard cats txns today).monthly_trend) :
    r.income
      = ((((txns.filter (fun t => !(dateLT t.date (trendStart today)))).filter
          (fun t => decide ((t.date.year, t.date.month) = (r.year, r.month)))).filter
          (fun t => t.catType == "income")).map (fun t => t.amount)).foldl
          (fun a q => round2 (a + q)) 0
    ∧ r.expenses
      = ((((txns.filter (fun t => !(dateLT t.date (trendStart today)))).filter
          (fun t => decide ((t.date.year, t.date.month) = (r.year, r.month)))).filter
          (fun t => !(t.catType == "income"))).map (fun t => |t.amount|)).foldl
          (fun a q => round2 (a + q)) 0
    ∧ r.net = round2 (r.income - r.expenses)
    ∧ ((txns.filter (fun t => !(dateLT t.date (trendStart today)))).filter
          (fun t => decide ((t.date.year, t.date.month) = (r.year, r.month)))) ≠ [] := by
  rw [trend_cells_eq] at hr
  obtain ⟨c, hc, hc2⟩ := List.mem_map.mp hr
  have hc3 : c ∈ (dictFold (fun t => (t.date.year, t.date.month)) trendIni trendUpd
      (txns.filter (fun t => !(dateLT t.date (trendStart today)))) []).map Prod.snd :=
    (stSort_perm _ _).mem_iff.mp hc
  obtain ⟨p, hp, hp2⟩ := List.mem_map.mp hc3
  have hym : (c.year, c.month) = p.1 := by
    rw [← hp2]
    exact trend_dict_ym (trendStart today) txns p hp
  have hrym : (r.year, r.month) = p.1 := by
    rw [← hc2]
    exact hym
  have hmem : ((r.year, r.month), c) ∈ dictFold
      (fun t => (t.date.year, t.date.month)) trendIni trendUpd
      (txns.filter (fun t => !(dateLT t.date (trendStart today)))) [] := by
    have hpc : p = ((r.year, r.month), c) := by
      obtain ⟨k, c2⟩ := p
      simp only at hp2 hrym
      rw [hp2] at hp ⊢
      rw [← hrym]
    rw [← hpc]
    exact hp
  have hb : lookupD (r.year, r.month) (dictFold
      (fun t => (t.date.year, t.date.month)) trendIni trendUpd
      (txns.filter (fun t => !(dateLT t.date (trendStart today)))) []) = some c :=
    lookupD_of_mem_nodup hmem (trend_dict_nodup (trendStart today) txns)
  rw [lookupD_dictFold] at hb
  rw [show lookupD (r.year, r.month) ([] : List ((Int × Nat) × TrendCell)) = none
    from rfl] at hb
  rw [foldl_optStep_none] at hb
  have hfields : r.income = c.income ∧ r.expenses = c.expenses
      ∧ r.net = round2 (c.income - c.expenses) := by
    rw [← hc2]
    exact ⟨rfl, rfl, rfl⟩
  cases hts : ((txns.filter (fun t => !(dateLT t.date (trendStart today)))).filter
      (fun t => decide ((t.date.year, t.date.month) = (r.year, r.month)))) with
  | nil =>
      rw [hts] at hb
      cases hb
  | cons t0 rest =>
      rw [hts] at hb
      injection hb with hb2
      refine ⟨?_, ?_, ?_, by simp⟩
      · rw [hfields.1, ← hb2, trendChain_income, List.filter_cons]
        by_cases h : t0.catType = "income"
        · have hin : (t0.catType == "income") = true := beq_iff_eq.mpr h
          rw [if_pos (by rw [hin]), List.map_cons, List.foldl_cons]
          have h1 : (trendUpd t0 (trendIni t0)).income = round2 (0 + t0.amount) := by
            simp only [trendUpd, trendIni, hin, if_true]
          rw [h1]
        · have hin : (t0.catType == "income") = false := beq_eq_false_iff_ne.mpr h
          rw [if_neg (by simp [hin])]
          have h1 : (trendUpd t0 (trendIni t0)).income = 0 := by
            simp only [trendUpd, trendIni, hin, Bool.false_eq_true, if_false]
          rw [h1]
      · rw [hfields.2.1, ← hb2, trendChain_expenses, List.filter_cons]
        by_cases h : t0.catType = "income"
        · have hin : (t0.catType == "income") = true := beq_iff_eq.mpr h
          rw [if_neg (by simp [hin])]
          have h1 : (trendUpd t0 (trendIni t0)).expenses = 0 := by
            simp only [trendUpd, trendIni, hin, if_true]
          rw [h1]
        · have hin : (t0.catType == "income") = false := beq_eq_false_iff_ne.mpr h
          rw [if_pos (by simp [hin]), List.map_cons, List.foldl_cons]
          have h1 : (trendUpd t0 (trendIni t0)).expenses = round2 (0 + |t0.amount|) := by
            simp only [trendUpd, trendIni, hin, Bool.false_eq_true, if_false]
          rw [h1]
      · rw [hfields.2.2, hfields.1, hfields.2.1]

theorem catTotals_nodup (ids : List Nat) (txns : List Transaction) :
    ((txns.foldl (catTotalsStep ids) []).map Prod.fst).Nodup := by
  rw [catTotalsFold]
  exact nodup_keys_dictFold _ _ _ _ _ (by simp)

/-- Every `cat_totals` entry is the plain (unrounded) sum of `abs(amount)`
over the selected transactions of its category id. -/
theorem catTotals_entry_char (ids : List Nat) (txns : List Transaction)
    (k : Nat) (raw : ℚ)
    (hb : lookupD k (txns.foldl (catTotalsStep ids) []) = some raw) :
    raw = (((txns.filter (catSel ids)).filter
        (fun t => decide (t.category_id.getD 0 = k))).map (fun t => |t.amount|)).sum := by
  rw [catTotalsFold, lookupD_dictFold] at hb
  rw [show lookupD k ([] : List (Nat × ℚ)) = none from rfl] at hb
  rw [foldl_optStep_none (fun _ => (0 : ℚ))
    (fun (t : Transaction) (v : ℚ) => v + |t.amount|)] at hb
  cases hts : ((txns.filter (catSel ids)).filter
      (fun t => decide (t.category_id.getD 0 = k))) with
  | nil =>
      rw [hts] at hb
      cases hb
  | cons t0 rest =>
      rw [hts] at hb
      injection hb with hb2
      rw [← hb2, foldl_addAbs, List.map_cons, List.sum_cons]
      ring

/-- Every `top_categories` entry carries the rounding and percentage of the
raw per-category sum of the selected transactions. -/
theorem top_entry_char (cats : List Category) (txns : List Transaction)
    (te : ℚ) (e : TopCatRow) (he : e ∈ topCategoriesOf cats txns te) :
    ∃ raw, 0 ≤ raw
      ∧ e.amount = round2 raw
      ∧ e.percentage = (if te ≠ 0 then round1 (raw / te * 100) else 0)
      ∧ raw = (((txns.filter (catSel
            ((cats.filter (fun c => c.type == "expense")).map (fun c => c.id)))).filter
            (fun t => decide (t.category_id.getD 0 = e.category_id))).map
            (fun t => |t.amount|)).sum := by
  rw [topCategoriesOf] at he
  obtain ⟨p, hp, hp2⟩ := List.mem_map.mp he
  have hp3 : p ∈ stSort (fun a b => decide (b.2 ≤ a.2))
      (txns.foldl (catTotalsStep
        ((cats.filter (fun c => c.type == "expense")).map (fun c => c.id))) []) :=
    List.mem_of_mem_take hp
  have hp4 : p ∈ txns.foldl (catTotalsStep
      ((cats.filter (fun c => c.type == "expense")).map (fun c => c.id))) [] :=
    (stSort_perm _ _).mem_iff.mp hp3
  have hb : lookupD p.1 (txns.foldl (catTotalsStep
      ((cats.filter (fun c => c.type == "expense")).map (fun c => c.id))) [])
      = some p.2 := by
    apply lookupD_of_mem_nodup _ (catTotals_nodup _ txns)
    exact hp4
  have hid : e.category_id = p.1 := by rw [← hp2]; exact rfl
  have hraw := catTotals_entry_char _ txns p.1 p.2 hb
  refine ⟨p.2, ?_, ?_, ?_, ?_⟩
  · rw [hraw]
    apply List.sum_nonneg
    intro q hq
    obtain ⟨x, hx, rfl⟩ := List.mem_map.mp hq
    exact abs_nonneg _
  · rw [← hp2]; exact rfl
  · rw [← hp2]; exact rfl
  · rw [hid, hraw]

theorem break_dict_ym (sel : List Transaction) :
    ∀ p ∈ dictFold (fun t => (t.date.year, t.date.month)) breakIni breakUpd sel [],
      (p.2.year, p.2.month) = p.1 := by
  exact mem_dictFold_invariant (fun t => (t.date.year, t.date.month)) breakIni breakUpd
    sel [] (fun k (b : MonthBucket) => (b.year, b.month) = k)
    (fun p hp => by cases hp) (fun t => rfl) (fun t b h => h)

theorem break_dict_nodup (sel : List Transaction) :
    ((dictFold (fun t => (t.date.year, t.date.month)) breakIni breakUpd sel []).map
      Prod.fst).Nodup :=
  nodup_keys_dictFold _ _ _ _ _ (by simp)

/-- Every `monthly_breakdown` row of the category report is exactly the
rounded accumulation over the selected transactions of its month. -/
theorem break_row_char (sel : List Transaction) (row : MonthBucket)
    (hrow : row ∈ (stSort (fun a b => ymLE (a.year, a.month) (b.year, b.month))
      ((dictFold (fun t => (t.date.year, t.date.month)) breakIni breakUpd sel []).map
        Prod.snd))) :
    row.amount
      = ((sel.filter (fun t => decide ((t.date.year, t.date.month)
          = (row.year, row.month)))).map (fun t => |t.amount|)).foldl
          (fun a q => round2 (a + q)) 0
    ∧ row.count
      = (sel.filter (fun t => decide ((t.date.year, t.date.month)
          = (row.year, row.month)))).length := by
  have h2 : row ∈ (dictFold (fun t => (t.date.year, t.date.month)) breakIni breakUpd
      sel []).map Prod.snd := (stSort_perm _ _).mem_iff.mp hrow
  obtain ⟨p, hp, hp2⟩ := List.mem_map.mp h2
  have hym : (row.year, row.month) = p.1 := by
    rw [← hp2]
    exact break_dict_ym sel p hp
  have hmem : ((row.year, row.month), row) ∈ dictFold
      (fun t => (t.date.year, t.date.month)) breakIni breakUpd sel [] := by
    have hpc : p = ((row.year, row.month), row) := by
      obtain ⟨k, b⟩ := p
      simp only at hp2 hym
      rw [hp2] at hp ⊢
      rw [← hym]
    rw [← hpc]
    exact hp
  have hb : lookupD (row.year, row.month) (dictFold
      (fun t => (t.date.year, t.date.month)) breakIni breakUpd sel []) = some row :=
    lookupD_of_mem_nodup hmem (break_dict_nodup sel)
  rw [lookupD_dictFold] at hb
  rw [show lookupD (row.year, row.month) ([] : List ((Int × Nat) × MonthBucket)) = none
    from rfl] at hb
  rw [foldl_optStep_none] at hb
  cases hts : (sel.filter (fun t => decide ((t.date.year, t.date.month)
      = (row.year, row.month)))) with
  | nil =>
      rw [hts] at hb
      cases hb
  | cons t0 rest =>
      rw [hts] at hb
      injection hb with hb2
      constructor
      · rw [← hb2, breakChain_amount, List.map_cons, List.foldl_cons]
        rfl
      · rw [← hb2, breakChain_count, List.length_cons]
        have h1 : (breakUpd t0 (breakIni t0)).count = 1 := rfl
        rw [h1]
        omega

set_option maxRecDepth 10000

/-! ### Claim theorems -/

/-- C1 (counterexample): with two meals transactions of -0.25 each
(factor 0.5), the reported bucket `deductible_amount` is 0.24, while the
rounding of the exact sum of per-transaction contributions
(0.125 + 0.125) is 0.25: the deductible sum is built from per-transaction
*rounded* contributions, so rounding is not applied exactly once per
reported field. -/
theorem C1_counterexample :
    lookupD "meals_entertainment"
        (tax_summary_report 2025 [txnA, txnB]).by_tax_category
      = some ⟨1/2, 6/25, 2, 1/2⟩
    ∧ round2 (|txnA.amount| * taxFactor "meals_entertainment"
        + |txnB.amount| * taxFactor "meals_entertainment") = 1/4
    ∧ ((6 : ℚ)/25) ≠ ((1 : ℚ)/4) := by
  with_unfolding_all decide

/-- C3 (counterexample): with two meals transactions of -0.75 each, the
bucket has `gross_amount = 1.5` and `deductible_amount = 0.76`, but
`round(gross_amount * TAX_DEDUCTIBILITY[tag], 2) = round(0.75, 2) = 0.75`:
the per-bucket deductible is not `round(gross * factor, 2)`. -/
theorem C3_counterexample :
    lookupD "meals_entertainment"
        (tax_summary_report 2025 [txnC, txnD]).by_tax_category
      = some ⟨3/2, 19/25, 2, 1/2⟩
    ∧ round2 ((3/2) * taxFactor "meals_entertainment") = 3/4
    ∧ ((19 : ℚ)/25) ≠ ((3 : ℚ)/4) := by
  with_unfolding_all decide

/-- C4 (counterexample): one uncategorized transaction (-10) and one
transaction in a stored category literally named `Uncategorized` (-5) in
the same month produce a SINGLE merged `by_category` entry with count 2
and amount 15, not two distinct entries. -/
theorem C4_counterexample :
    (monthly_report 2025 5 [txnU1, txnU2]).by_category
      = [⟨none, "Uncategorized", "expense", 15, 2⟩]
    ∧ (monthly_report 2025 5 [txnU1, txnU2]).by_category.length ≠ 2 := by
  with_unfolding_all decide

/-- C5 (counterexample): on description "AWS EC2 and S3 usage" and vendor
"Amazon Web Services" the classifier matches FOUR keywords of
`Cloud Infrastructure` ("aws", "amazon web services", "ec2", "s3"), so
`match_count` is 4, not the claimed 3. -/
theorem C5_counterexample :
    (classify_transaction [] "AWS EC2 and S3 usage"
        (some "Amazon Web Services")).match_count = 4
    ∧ (classify_transaction [] "AWS EC2 and S3 usage"
        (some "Amazon Web Services")).match_count ≠ 3 := by
  with_unfolding_all decide

/-- C5 (amended): for every stored-category snapshot, classify on
description "AWS EC2 and S3 usage" and vendor "Amazon Web Services"
returns category_name "Cloud Infrastructure", match_count 4 (keywords
"aws", "amazon web services", "ec2", "s3"), and confidence 1.0. -/
theorem C5_amended_classify (cats : List Category) :
    (classify_transaction cats "AWS EC2 and S3 usage"
        (some "Amazon Web Services")).category_name = "Cloud Infrastructure"
    ∧ (classify_transaction cats "AWS EC2 and S3 usage"
        (some "Amazon Web Services")).match_count = 4
    ∧ (classify_transaction cats "AWS EC2 and S3 usage"
        (some "Amazon Web Services")).confidence = 1 := by
  have hr : classify_text (searchTextOf "AWS EC2 and S3 usage"
      (some "Amazon Web Services")) = (4, "Cloud Infrastructure") := by
    with_unfolding_all decide
  have hconf : round2 (min 1 (((4 : Nat) : ℚ) / 3)) = 1 := by
    with_unfolding_all decide
  simp only [classify_transaction, hr]
  rw [if_neg (by decide)]
  exact ⟨rfl, rfl, hconf⟩

/-- C2 (code_bug, evaluation at the failing input): when today is
2025-12-15 the trend window start is computed as 2024-01-01 (January 1 of
the PREVIOUS year, a 24-month window), contradicting the docstring
"last 12 months" and the comment "the 1st of the month 11 months ago";
a transaction dated 2024-01-15 (23 months in the past, before the claimed
window start 2025-01-01) appears in `monthly_trend`. -/
theorem C2_december_window_eval :
    trendStart ⟨2025, 12, 15⟩ = ⟨2024, 1, 1⟩
    ∧ dateLT oldTxn.date ⟨2025, 1, 1⟩ = true
    ∧ (get_dashboard [] [oldTxn] ⟨2025, 12, 15⟩).monthly_trend
        = [⟨2024, 1, 0, 50, -50⟩] := by
  with_unfolding_all decide

/-- C8 (counterexample): two transactions of equal absolute amount in
different categories: permuting the input list permutes the tied
`by_category` entries of the monthly report, so the aggregator's output
is NOT invariant under permutation of its input. -/
theorem C8_counterexample :
    List.Perm [txnP, txnQ] [txnQ, txnP]
    ∧ monthly_report 2025 3 [txnP, txnQ] ≠ monthly_report 2025 3 [txnQ, txnP] :=
  ⟨List.Perm.swap txnQ txnP [], by with_unfolding_all decide⟩

/-- C6 (counterexample): five expense categories with amounts 20.06,
20.06, 20.06, 19.96, 19.86 (total expenses exactly 100.00) give rounded
percentages 20.1, 20.1, 20.1, 20.0, 19.9, whose sum 100.2 exceeds 100. -/
theorem C6_counterexample :
    ((get_dashboard dashCats dashTxns ⟨2025, 6, 30⟩).top_categories.map
        (fun e => e.percentage)).sum = 501/5
    ∧ ¬(((get_dashboard dashCats dashTxns ⟨2025, 6, 30⟩).top_categories.map
        (fun e => e.percentage)).sum ≤ 100) := by
  with_unfolding_all decide

/-- C9 (confirmed): for every input text, `_classify_text` over the fixed
keyword table returns exactly the specification winner: the category with
the strictly highest match count, ties broken by first occurrence in the
table's fixed iteration order (and `(0, "")` when nothing matches).  The
function is pure, so repeated calls with identical input are identical by
reflexivity. -/
theorem C9_classifier_first_max (text : String) :
    classify_text text = bestSpec CATEGORY_KEYWORDS text := by
  rw [classify_text]
  simp only [bestSpec]
  by_cases hM : maxCount CATEGORY_KEYWORDS text = 0
  · rw [if_pos hM]
    apply classifyFold_le
    intro e he
    have := countKw_le_maxCount CATEGORY_KEYWORDS text e he
    omega
  · rw [if_neg hM]
    obtain ⟨e, hf, hc, hfold⟩ := classifyFold_gt text CATEGORY_KEYWORDS (0, "")
      (Nat.pos_of_ne_zero hM)
    rw [hfold, hf]

/-- C10 (confirmed): in the tax-year summary every in-range transaction is
counted exactly once: income-tagged transactions contribute their signed
amount to total_income only (no bucket is ever keyed "income"); all others
contribute abs(amount) to total_expenses and to exactly one bucket, so the
bucket transaction counts sum to the number of in-range non-income
transactions (a missing or empty tax category resolving to
"pending_review" via `taxKey`). -/
theorem C10_tax_partition (year : Int) (txns : List Transaction) :
    (tax_summary_report year txns).total_income
      = round2 (((txns.filter (inTaxYear year)).filter
          (fun t => t.taxKey == "income")).map (fun t => t.amount)).sum
    ∧ (tax_summary_report year txns).total_expenses
      = round2 (((txns.filter (inTaxYear year)).filter
          (fun t => !(t.taxKey == "income"))).map (fun t => |t.amount|)).sum
    ∧ (((tax_summary_report year txns).by_tax_category).map
          (fun e => e.2.transaction_count)).sum
      = ((txns.filter (inTaxYear year)).filter
          (fun t => !(t.taxKey == "income"))).length
    ∧ ∀ e ∈ (tax_summary_report year txns).by_tax_category, e.1 ≠ "income" := by
  refine ⟨tax_total_income_eq year txns, tax_total_expenses_eq year txns, ?_, ?_⟩
  · rw [tax_buckets_eq]
    rw [sum_map_dictFold (fun t => t.taxKey) taxIni taxUpd
      ((txns.filter (inTaxYear year)).filter (fun t => !(t.taxKey == "income"))) []
      (fun b => b.transaction_count) (fun _ => 1)
      (fun t v => rfl) (fun t => rfl)]
    rw [sum_map_ones]
    simp
  · intro e he
    rw [tax_buckets_eq] at he
    have hk : e.1 ∈ (dictFold (fun t => t.taxKey) taxIni taxUpd
        ((txns.filter (inTaxYear year)).filter (fun t => !(t.taxKey == "income")))
        []).map Prod.fst := List.mem_map_of_mem Prod.fst he
    rcases (keys_dictFold _ _ _ _ _ _).mp hk with h | ⟨t, ht, hkey⟩
    · cases h
    · have hni := (List.mem_filter.mp ht).2
      intro hcon
      rw [hcon] at hkey
      rw [hkey] at hni
      simp at hni

/-- C10 witness: instantiation at a concrete input. -/
theorem C10_tax_partition_witness :
    ⟨1/2, 6/25, 2, 1/2⟩ ∈ (tax_summary_report 2025 [txnA, txnB]).by_tax_category.map
        Prod.snd
    ∧ ("meals_entertainment", (⟨1/2, 6/25, 2, 1/2⟩ : TaxBucket))
        ∈ (tax_summary_report 2025 [txnA, txnB]).by_tax_category
    ∧ ("meals_entertainment" : String) ≠ "income" := by
  refine ⟨by with_unfolding_all decide, ?_, ?_⟩
  · with_unfolding_all decide
  · exact (C10_tax_partition 2025 [txnA, txnB]).2.2.2
      ("meals_entertainment", ⟨1/2, 6/25, 2, 1/2⟩) (by with_unfolding_all decide)

/-- C8 (amended): all scalar aggregate fields of the monthly report, tax
summary and dashboard are invariant under permutation of the input
transaction list; only the ordering of tied `by_category` /
`top_categories` entries follows input order (see the counterexample). -/
theorem C8_amended_perm_invariance (l1 l2 : List Transaction)
    (hp : List.Perm l1 l2) (year : Int) (month : Nat) (cats : List Category)
    (today : PyDate) :
    (monthly_report year month l1).total_income
        = (monthly_report year month l2).total_income
    ∧ (monthly_report year month l1).total_expenses
        = (monthly_report year month l2).total_expenses
    ∧ (monthly_report year month l1).net = (monthly_report year month l2).net
    ∧ (monthly_report year month l1).transaction_count
        = (monthly_report year month l2).transaction_count
    ∧ (tax_summary_report year l1).total_income
        = (tax_summary_report year l2).total_income
    ∧ (tax_summary_report year l1).total_expenses
        = (tax_summary_report year l2).total_expenses
    ∧ (tax_summary_report year l1).net_income
        = (tax_summary_report year l2).net_income
    ∧ (tax_summary_report year l1).transactions_pending_review
        = (tax_summary_report year l2).transactions_pending_review
    ∧ (tax_summary_report year l1).unclassified_count
        = (tax_summary_report year l2).unclassified_count
    ∧ (get_dashboard cats l1 today).total_income
        = (get_dashboard cats l2 today).total_income
    ∧ (get_dashboard cats l1 today).total_expenses
        = (get_dashboard cats l2 today).total_expenses
    ∧ (get_dashboard cats l1 today).net_income
        = (get_dashboard cats l2 today).net_income
    ∧ (get_dashboard cats l1 today).unclassified_count
        = (get_dashboard cats l2 today).unclassified_count := by
  refine ⟨?_, ?_, ?_, ?_, ?_, ?_, ?_, ?_, ?_, ?_, ?_, ?_, ?_⟩
  · rw [monthly_total_income_eq, monthly_total_income_eq]
    exact congrArg round2 (List.Perm.sum_eq (((hp.filter _).filter _).map _))
  · rw [monthly_total_expenses_eq, monthly_total_expenses_eq]
    exact congrArg round2 (List.Perm.sum_eq (((hp.filter _).filter _).map _))
  · rw [monthly_net_eq, monthly_net_eq,
      List.Perm.sum_eq (((hp.filter _).filter _).map _),
      List.Perm.sum_eq (((hp.filter _).filter _).map _)]
  · rw [monthly_count_eq, monthly_count_eq]
    exact (hp.filter _).length_eq
  · rw [tax_total_income_eq, tax_total_income_eq]
    exact congrArg round2 (List.Perm.sum_eq (((hp.filter _).filter _).map _))
  · rw [tax_total_expenses_eq, tax_total_expenses_eq]
    exact congrArg round2 (List.Perm.sum_eq (((hp.filter _).filter _).map _))
  · rw [tax_net_eq, tax_net_eq,
      List.Perm.sum_eq (((hp.filter _).filter _).map _),
      List.Perm.sum_eq (((hp.filter _).filter _).map _)]
  · rw [tax_pending_eq, tax_pending_eq]
    exact ((hp.filter _).filter _).length_eq
  · rw [tax_unclassified_eq, tax_unclassified_eq]
    exact ((hp.filter _).filter _).length_eq
  · rw [dash_total_income_eq, dash_total_income_eq]
    exact congrArg round2 (List.Perm.sum_eq ((hp.filter _).map _))
  · rw [dash_total_expenses_eq, dash_total_expenses_eq]
    exact congrArg round2 (List.Perm.sum_eq ((hp.filter _).map _))
  · rw [dash_net_eq, dash_net_eq,
      List.Perm.sum_eq ((hp.filter _).map _),
      List.Perm.sum_eq ((hp.filter _).map _)]
  · rw [dash_unclassified_eq, dash_unclassified_eq]
    exact (hp.filter _).length_eq

/-- C8 witness: the permutation-invariant scalar fields at a concrete
permuted pair. -/
theorem C8_amended_perm_invariance_witness :
    (monthly_report 2025 3 [txnP, txnQ]).total_income
      = (monthly_report 2025 3 [txnQ, txnP]).total_income :=
  (C8_amended_perm_invariance [txnP, txnQ] [txnQ, txnP]
    (List.Perm.swap txnQ txnP []) 2025 3 [] ⟨2025, 3, 31⟩).1

theorem tax_buckets_ded_isCents (year : Int) (txns : List Transaction) :
    ∀ e ∈ (tax_summary_report year txns).by_tax_category,
      IsCents e.2.deductible_amount := by
  rw [tax_buckets_eq]
  exact mem_dictFold_invariant (fun t => t.taxKey) taxIni taxUpd
    ((txns.filter (inTaxYear year)).filter (fun t => !(t.taxKey == "income"))) []
    (fun k (b : TaxBucket) => IsCents b.deductible_amount)
    (fun p hp => by cases hp) (fun t => isCents_zero)
    (fun t b h => isCents_round2 _)

/-- C3 (amended): `total_deductible` is the sum of the buckets'
`deductible_amount` (as claimed); each bucket's `deductible_amount` is the
SUM of the per-transaction rounded deductibles
`round(abs(amount) * TAX_DEDUCTIBILITY[tag], 2)` over its transactions,
which is what the code computes instead of `round(gross * factor, 2)`. -/
theorem C3_amended_deductible (year : Int) (txns : List Transaction) :
    (tax_summary_report year txns).total_deductible
      = (((tax_summary_report year txns).by_tax_category).map
          (fun e => e.2.deductible_amount)).sum
    ∧ ∀ k b, lookupD k (tax_summary_report year txns).by_tax_category = some b →
        b.deductible_amount
          = ((((txns.filter (inTaxYear year)).filter
              (fun t => !(t.taxKey == "income"))).filter
              (fun t => decide (t.taxKey = k))).map
              (fun t => round2 (|t.amount| * taxFactor t.taxKey))).sum := by
  constructor
  · have h : (tax_summary_report year txns).total_deductible
        = round2 ((((tax_summary_report year txns).by_tax_category).map
            (fun e => e.2.deductible_amount)).sum) := rfl
    rw [h]
    apply round2_of_isCents
    apply isCents_sum
    intro q hq
    obtain ⟨e, he, rfl⟩ := List.mem_map.mp hq
    exact tax_buckets_ded_isCents year txns e he
  · intro k b hb
    have hc := (tax_bucket_char year txns k b hb).2.1
    rw [hc]
    have hall : ∀ q ∈ ((((txns.filter (inTaxYear year)).filter
        (fun t => !(t.taxKey == "income"))).filter
        (fun t => decide (t.taxKey = k))).map
        (fun t => round2 (|t.amount| * taxFactor t.taxKey))), IsCents q := by
      intro q hq
      obtain ⟨t, ht, rfl⟩ := List.mem_map.mp hq
      exact isCents_round2 _
    rw [foldl_round2_add _ 0 isCents_zero hall]
    ring

/-- C3 witness: the amended bucket equation at a concrete input. -/
theorem C3_amended_deductible_witness :
    (⟨1/2, 6/25, 2, 1/2⟩ : TaxBucket).deductible_amount
      = (((([txnA, txnB].filter (inTaxYear 2025)).filter
          (fun t => !(t.taxKey == "income"))).filter
          (fun t => decide (t.taxKey = "meals_entertainment"))).map
          (fun t => round2 (|t.amount| * taxFactor t.taxKey))).sum :=
  (C3_amended_deductible 2025 [txnA, txnB]).2 "meals_entertainment"
    ⟨1/2, 6/25, 2, 1/2⟩ (by with_unfolding_all decide)

theorem monthly_names_nodup (year : Int) (month : Nat) (txns : List Transaction) :
    ((monthly_report year month txns).by_category.map
      (fun r => r.category_name)).Nodup := by
  rw [monthly_cats_eq]
  have hperm := (stSort_perm (fun (a : MonthCatRow) b => decide (b.amount ≤ a.amount))
    ((dictFold (fun t => t.monthKey) monthlyIni monthlyUpd
      (txns.filter (inMonth year month)) []).map Prod.snd)).map
    (fun r => r.category_name)
  have heq : ((dictFold (fun t => t.monthKey) monthlyIni monthlyUpd
      (txns.filter (inMonth year month)) []).map Prod.snd).map
      (fun r => r.category_name)
      = (dictFold (fun t => t.monthKey) monthlyIni monthlyUpd
          (txns.filter (inMonth year month)) []).map Prod.fst := by
    rw [List.map_map]
    apply List.map_congr_left
    intro p hp
    exact monthly_dict_name year month txns p hp
  rw [heq] at hperm
  exact hperm.nodup_iff.mpr (monthly_dict_nodup year month txns)

/-- C4 (amended): unresolved-category transactions are grouped under the
key "Uncategorized" and DO merge with transactions of a stored category
named "Uncategorized": `by_category` never holds two entries with the
same name, and each entry's count is the number of in-month transactions
whose defaulted grouping key equals that name (covering both kinds). -/
theorem C4_amended_merge (year : Int) (month : Nat) (txns : List Transaction) :
    ((monthly_report year month txns).by_category.map
      (fun r => r.category_name)).Nodup
    ∧ ∀ row ∈ (monthly_report year month txns).by_category,
        row.count = ((txns.filter (inMonth year month)).filter
          (fun t => decide (t.monthKey = row.category_name))).length :=
  ⟨monthly_names_nodup year month txns,
   fun row hrow => (monthly_row_char year month txns row hrow).2.1⟩

/-- C4 witness: the merged entry at the concrete input counts both the
unresolved transaction and the stored-"Uncategorized" transaction. -/
theorem C4_amended_merge_witness :
    (⟨none, "Uncategorized", "expense", 15, 2⟩ : MonthCatRow).count
      = (([txnU1, txnU2].filter (inMonth 2025 5)).filter
          (fun t => decide (t.monthKey
            = (⟨none, "Uncategorized", "expense", 15, 2⟩ : MonthCatRow).category_name))).length :=
  (C4_amended_merge 2025 5 [txnU1, txnU2]).2
    ⟨none, "Uncategorized", "expense", 15, 2⟩ (by with_unfolding_all decide)

/-- C7 (confirmed): the category report fails (returns `none`, the 404)
iff the category id resolves to no stored category; for an existing
category with no matching transactions it returns zeroed totals, 0.0
average, and empty breakdown and transaction lists; and the other report
kinds return zeroed/empty aggregates on empty input instead of failing. -/
theorem C7_category_report_errors :
    (∀ (cats : List Category) (txns : List Transaction) (cid : Nat)
        (start stop : Option PyDate),
      category_report cats txns cid start stop = none ↔ ∀ c ∈ cats, c.id ≠ cid)
    ∧ (∀ (cats : List Category) (txns : List Transaction) (cid : Nat)
        (start stop : Option PyDate) (c : Category),
      cats.find? (fun c2 => c2.id == cid) = some c →
      txns.filter (inCategoryQuery cid start stop) = [] →
      category_report cats txns cid start stop
        = some ⟨c, start, stop, 0, 0, 0, [], []⟩)
    ∧ (∀ year : Int, tax_summary_report year [] = ⟨year, 0, 0, 0, 0, [], 0, 0⟩)
    ∧ (∀ (year : Int) (month : Nat),
        monthly_report year month [] = ⟨year, month, 0, 0, 0, 0, []⟩)
    ∧ (∀ (cats : List Category) (today : PyDate),
        get_dashboard cats [] today = ⟨0, 0, 0, 0, [], [], []⟩) := by
  refine ⟨?_, ?_, ?_, ?_, ?_⟩
  · intro cats txns cid start stop
    cases hfind : cats.find? (fun c2 => c2.id == cid) with
    | none =>
        simp only [category_report, hfind]
        constructor
        · intro _ c hc hid
          have := List.find?_eq_none.mp hfind c hc
          rw [hid] at this
          simp at this
        · intro _
          trivial
    | some c =>
        simp only [category_report, hfind]
        constructor
        · intro h
          cases h
        · intro h
          have hmem := List.mem_of_find?_eq_some hfind
          have hpred := List.find?_some hfind
          have : c.id = cid := by simpa using hpred
          exact absurd this (h c hmem)
  · intro cats txns cid start stop c hfind hfilter
    have hsel : catReportSel txns cid start stop = [] := by
      rw [catReportSel, hfilter]
      rfl
    have h : category_report cats txns cid start stop
        = some ⟨c, start, stop, round2 0, 0,
            (if (0 : Nat) ≠ 0 then round2 (0 / ((0 : Nat) : ℚ)) else 0), [], []⟩ := by
      simp only [category_report, hfind, hsel]
      rfl
    rw [h, round2_zero]
    simp
  · intro year
    have h : tax_summary_report year []
        = ⟨year, round2 0, round2 0, round2 0, round2 (0 - 0), [], 0, 0⟩ := rfl
    rw [h, sub_zero, round2_zero]
  · intro year month
    have h : monthly_report year month []
        = ⟨year, month, round2 0, round2 0, round2 (0 - 0), 0, []⟩ := rfl
    rw [h, sub_zero, round2_zero]
  · intro cats today
    have h : get_dashboard cats [] today
        = ⟨round2 0, round2 0, round2 (0 - 0), 0, [], [], []⟩ := rfl
    rw [h, sub_zero, round2_zero]

/-- C7 witness: the error and empty-category behavior at concrete inputs. -/
theorem C7_category_report_errors_witness :
    (category_report [] [] 3 none none = none)
    ∧ category_report [catA] [] 1 none none
        = some ⟨catA, none, none, 0, 0, 0, [], []⟩ := by
  constructor
  · exact (C7_category_report_errors.1 [] [] 3 none none).mpr
      (fun c hc => by cases hc)
  · exact C7_category_report_errors.2.1 [catA] [] 1 none none catA
      (by with_unfolding_all decide) rfl

theorem foldl_r2add_cents (l : List ℚ) (h : ∀ q ∈ l, IsCents q) :
    l.foldl (fun a q => round2 (a + q)) 0 = round2 l.sum := by
  rw [foldl_round2_add l 0 isCents_zero h, zero_add,
    round2_of_isCents (isCents_sum l h)]

theorem cents_absmap (txns : List Transaction)
    (hc : ∀ t ∈ txns, IsCents t.amount) (l : List Transaction)
    (hsub : ∀ t ∈ l, t ∈ txns) :
    ∀ q ∈ l.map (fun t => |t.amount|), IsCents q := by
  intro q hq
  obtain ⟨t, ht, rfl⟩ := List.mem_map.mp hq
  exact isCents_abs (hc t (hsub t ht))

theorem cents_map_amount (txns : List Transaction)
    (hc : ∀ t ∈ txns, IsCents t.amount) (l : List Transaction)
    (hsub : ∀ t ∈ l, t ∈ txns) :
    ∀ q ∈ l.map (fun t => t.amount), IsCents q := by
  intro q hq
  obtain ⟨t, ht, rfl⟩ := List.mem_map.mp hq
  exact hc t (hsub t ht)

/-- C1 (amended): rounding is applied on every accumulation step rather
than once per reported field; because stored amounts are whole cents
(`Numeric(14, 2)`), the per-step rounding is the identity and every
reported currency sum field EXCEPT `deductible_amount` /
`total_deductible` still equals `round(sum of exact per-transaction
contributions, 2)`.  (The deductible fields sum per-transaction rounded
contributions; see the counterexample.) -/
theorem C1_amended_rounding (year : Int) (month : Nat) (cats : List Category)
    (today : PyDate) (txns : List Transaction) (cid : Nat)
    (start stop : Option PyDate)
    (hcents : ∀ t ∈ txns, IsCents t.amount) :
    (tax_summary_report year txns).total_income
      = round2 (((txns.filter (inTaxYear year)).filter
          (fun t => t.taxKey == "income")).map (fun t => t.amount)).sum
    ∧ (tax_summary_report year txns).total_expenses
      = round2 (((txns.filter (inTaxYear year)).filter
          (fun t => !(t.taxKey == "income"))).map (fun t => |t.amount|)).sum
    ∧ (∀ k b, lookupD k (tax_summary_report year txns).by_tax_category = some b →
        b.gross_amount
          = round2 ((((txns.filter (inTaxYear year)).filter
              (fun t => !(t.taxKey == "income"))).filter
              (fun t => decide (t.taxKey = k))).map (fun t => |t.amount|)).sum)
    ∧ (monthly_report year month txns).total_income
      = round2 (((txns.filter (inMonth year month)).filter
          (fun t => t.catType == "income")).map (fun t => t.amount)).sum
    ∧ (monthly_report year month txns).total_expenses
      = round2 (((txns.filter (inMonth year month)).filter
          (fun t => !(t.catType == "income"))).map (fun t => |t.amount|)).sum
    ∧ (∀ row ∈ (monthly_report year month txns).by_category,
        row.amount
          = round2 (((txns.filter (inMonth year month)).filter
              (fun t => decide (t.monthKey = row.category_name))).map
              (fun t => |t.amount|)).sum)
    ∧ (get_dashboard cats txns today).total_income
      = round2 ((txns.filter (fun t => t.catType == "income")).map
          (fun t => t.amount)).sum
    ∧ (get_dashboard cats txns today).total_expenses
      = round2 ((txns.filter (fun t => !(t.catType == "income"))).map
          (fun t => |t.amount|)).sum
    ∧ (∀ e ∈ (get_dashboard cats txns today).top_categories,
        e.amount
          = round2 (((txns.filter (catSel
              ((cats.filter (fun c => c.type == "expense")).map
                (fun c => c.id)))).filter
              (fun t => decide (t.category_id.getD 0 = e.category_id))).map
              (fun t => |t.amount|)).sum)
    ∧ (∀ r ∈ (get_dashboard cats txns today).monthly_trend,
        r.income
          = round2 ((((txns.filter (fun t => !(dateLT t.date (trendStart today)))).filter
              (fun t => decide ((t.date.year, t.date.month) = (r.year, r.month)))).filter
              (fun t => t.catType == "income")).map (fun t => t.amount)).sum
        ∧ r.expenses
          = round2 ((((txns.filter (fun t => !(dateLT t.date (trendStart today)))).filter
              (fun t => decide ((t.date.year, t.date.month) = (r.year, r.month)))).filter
              (fun t => !(t.catType == "income"))).map (fun t => |t.amount|)).sum)
    ∧ (∀ rep, category_report cats txns cid start stop = some rep →
        rep.total_amount
          = round2 ((catReportSel txns cid start stop).map (fun t => |t.amount|)).sum
        ∧ ∀ row ∈ rep.monthly_breakdown,
            row.amount
              = round2 (((catReportSel txns cid start stop).filter
                  (fun t => decide ((t.date.year, t.date.month)
                    = (row.year, row.month)))).map (fun t => |t.amount|)).sum) := by
  refine ⟨tax_total_income_eq year txns, tax_total_expenses_eq year txns,
    ?_, monthly_total_income_eq year month txns,
    monthly_total_expenses_eq year month txns, ?_,
    dash_total_income_eq cats txns today, dash_total_expenses_eq cats txns today,
    ?_, ?_, ?_⟩
  · intro k b hb
    rw [(tax_bucket_char year txns k b hb).1]
    apply foldl_r2add_cents
    apply cents_absmap txns hcents
    intro t ht
    exact List.mem_of_mem_filter
      (List.mem_of_mem_filter (List.mem_of_mem_filter ht))
  · intro row hrow
    rw [(monthly_row_char year month txns row hrow).1]
    apply foldl_r2add_cents
    apply cents_absmap txns hcents
    intro t ht
    exact List.mem_of_mem_filter (List.mem_of_mem_filter ht)
  · intro e he
    have htop : (get_dashboard cats txns today).top_categories
        = topCategoriesOf cats txns ((txns.foldl totalsStep (0, 0)).2) := rfl
    rw [htop] at he
    obtain ⟨raw, hnn, hamt, hpct, hraw⟩ :=
      top_entry_char cats txns ((txns.foldl totalsStep (0, 0)).2) e he
    rw [hamt, hraw]
  · intro r hr
    obtain ⟨hi, hx, hnet, hne⟩ := trend_row_char cats txns today r hr
    constructor
    · rw [hi]
      apply foldl_r2add_cents
      apply cents_map_amount txns hcents
      intro t ht
      exact List.mem_of_mem_filter
        (List.mem_of_mem_filter (List.mem_of_mem_filter ht))
    · rw [hx]
      apply foldl_r2add_cents
      apply cents_absmap txns hcents
      intro t ht
      exact List.mem_of_mem_filter
        (List.mem_of_mem_filter (List.mem_of_mem_filter ht))
  · intro rep hrep
    cases hfind : cats.find? (fun c2 => c2.id == cid) with
    | none =>
        rw [category_report, hfind] at hrep
        cases hrep
    | some c =>
        rw [category_report, hfind] at hrep
        injection hrep with hrep2
        have hsub : ∀ t ∈ catReportSel txns cid start stop, t ∈ txns := by
          intro t ht
          have h2 : t ∈ txns.filter (inCategoryQuery cid start stop) :=
            (stSort_perm _ _).mem_iff.mp ht
          exact List.mem_of_mem_filter h2
        constructor
        · rw [← hrep2]
        · intro row hrow
          have hbd : rep.monthly_breakdown
              = stSort (fun a b => ymLE (a.year, a.month) (b.year, b.month))
                ((dictFold (fun t => (t.date.year, t.date.month)) breakIni breakUpd
                  (catReportSel txns cid start stop) []).map Prod.snd) := by
            rw [← hrep2]
            have hmb : ((catReportSel txns cid start stop).foldl breakdownStep [])
                = dictFold (fun t => (t.date.year, t.date.month)) breakIni breakUpd
                  (catReportSel txns cid start stop) [] := breakdownFold _ _
            simp only [hmb]
          rw [hbd] at hrow
          rw [(break_row_char (catReportSel txns cid start stop) row hrow).1]
          apply foldl_r2add_cents
          apply cents_absmap txns hcents
          intro t ht
          exact hsub t (List.mem_of_mem_filter ht)

/-- C1 witness: the amended equality at a concrete whole-cent input. -/
theorem C1_amended_rounding_witness :
    (tax_summary_report 2025 [txnA, txnB]).total_expenses
      = round2 ((([txnA, txnB].filter (inTaxYear 2025)).filter
          (fun t => !(t.taxKey == "income"))).map (fun t => |t.amount|)).sum := by
  have hcents : ∀ t ∈ [txnA, txnB], IsCents t.amount := by
    intro t ht
    rcases List.mem_cons.mp ht with rfl | ht2
    · exact ⟨-25, by norm_num [txnA]⟩
    · rcases List.mem_cons.mp ht2 with rfl | ht3
      · exact ⟨-25, by norm_num [txnB]⟩
      · cases ht3
  exact (C1_amended_rounding 2025 5 [] ⟨2025, 6, 1⟩ [txnA, txnB] 1 none none
    hcents).2.1

/-- The exact (pre-rounding) total of expenses, as accumulated by the
dashboard totals loop. -/
def totalExpensesRaw (txns : List Transaction) : ℚ :=
  ((txns.filter (fun t => !(t.catType == "income"))).map (fun t => |t.amount|)).sum

theorem totalsStep_snd_raw (txns : List Transaction) :
    (txns.foldl totalsStep (0, 0)).2 = totalExpensesRaw txns := by
  rw [totalsFold_snd, totalExpensesRaw]
  norm_num

theorem catTotals_sum_eq (ids : List Nat) (txns : List Transaction) :
    ((txns.foldl (catTotalsStep ids) []).map (fun p => p.2)).sum
      = ((txns.filter (catSel ids)).map (fun t => |t.amount|)).sum := by
  rw [catTotalsFold]
  rw [sum_map_dictFold (fun t => t.category_id.getD 0) (fun _ => (0 : ℚ))
    (fun (t : Transaction) (v : ℚ) => v + |t.amount|) (txns.filter (catSel ids)) []
    (fun v => v) (fun t => |t.amount|) (fun t v => rfl) (fun t => rfl)]
  simp

theorem catTotals_values_nonneg (ids : List Nat) (txns : List Transaction) :
    ∀ p ∈ txns.foldl (catTotalsStep ids) [], 0 ≤ p.2 := by
  rw [catTotalsFold]
  exact mem_dictFold_invariant (fun t => t.category_id.getD 0) (fun _ => (0 : ℚ))
    (fun (t : Transaction) (v : ℚ) => v + |t.amount|) (txns.filter (catSel ids)) []
    (fun k (v : ℚ) => 0 ≤ v) (fun p hp => by cases hp) (fun t => le_refl 0)
    (fun t v h => add_nonneg h (abs_nonneg _))

theorem rankedTotals_le_total :
    ∀ a b : Nat × ℚ, decide (b.2 ≤ a.2) = true ∨ decide (a.2 ≤ b.2) = true := by
  intro a b
  rcases le_total b.2 a.2 with h | h
  · exact Or.inl (decide_eq_true h)
  · exact Or.inr (decide_eq_true h)

theorem rankedTotals_le_trans :
    ∀ a b c : Nat × ℚ, decide (b.2 ≤ a.2) = true → decide (c.2 ≤ b.2) = true →
      decide (c.2 ≤ a.2) = true :=
  fun a b c h1 h2 =>
    decide_eq_true (le_trans (of_decide_eq_true h2) (of_decide_eq_true h1))

/-- With referential integrity (every resolved category is a stored one)
and unique category ids, every transaction selected into `cat_totals`
is a non-income transaction. -/
theorem catSel_nonIncome (cats : List Category) (txns : List Transaction)
    (hconsist : ∀ t ∈ txns, ∀ c, t.category_obj = some c → c ∈ cats)
    (hids : (cats.map (fun c => c.id)).Nodup) :
    ∀ t ∈ txns, catSel ((cats.filter (fun c => c.type == "expense")).map
      (fun c => c.id)) t = true → (!(t.catType == "income")) = true := by
  intro t ht hsel
  cases hobj : t.category_obj with
  | none =>
      rw [catSel] at hsel
      have hid : t.category_id = none := by
        rw [Transaction.category_id, hobj]
        rfl
      rw [hid] at hsel
      cases hsel
  | some c =>
      have hid : t.category_id = some c.id := by
        rw [Transaction.category_id, hobj]
        rfl
      simp only [catSel, hid] at hsel
      have hmem : (c.id ∈ (cats.filter (fun c2 => c2.type == "expense")).map
          (fun c2 => c2.id)) := by
        have h2 := (Bool.and_eq_true _ _).mp hsel
        have h3 := h2.2
        rw [List.contains_eq_any_beq] at h3
        obtain ⟨x, hx, hbeq⟩ := List.any_eq_true.mp h3
        have : c.id = x := by simpa using hbeq
        rw [this]
        exact hx
      obtain ⟨c2, hc2, hc2id⟩ := List.mem_map.mp hmem
      have hc2cats : c2 ∈ cats := List.mem_of_mem_filter hc2
      have hc2exp : c2.type = "expense" := by
        have := (List.mem_filter.mp hc2).2
        simpa using this
      have hccats : c ∈ cats := hconsist t ht c hobj
      have hceq : c2 = c := List.inj_on_of_nodup_map hids hc2cats hccats hc2id
      have htype : t.catType = "expense" := by
        rw [Transaction.catType, hobj, ← hceq]
        exact hc2exp
      rw [htype]
      decide

theorem map_pct_mkTopCat (ecats : List Category) (te : ℚ) (L : List (Nat × ℚ)) :
    (L.map (mkTopCat ecats te)).map (fun e => e.percentage)
      = L.map (fun p => if te ≠ 0 then round1 (p.2 / te * 100) else 0) := by
  rw [List.map_map]
  rfl

/-- C6 (amended): `top_categories` has at most 5 entries, is sorted by
amount descending, ties in the raw ranking keep first-appearance
(insertion) order (stability of the sort, stated as a filter equation on
each tie class), each percentage is `round(raw / total_expenses * 100, 1)`
(0.0 when total_expenses is 0), and -- under referential integrity and
unique category ids -- the listed percentages sum to at most
`100 + 0.05 * (number of listed entries)`; each rounding can add up to
0.05, so the sum CAN exceed 100 (see the counterexample). -/
theorem C6_amended_top_categories (cats : List Category) (txns : List Transaction)
    (today : PyDate)
    (hconsist : ∀ t ∈ txns, ∀ c, t.category_obj = some c → c ∈ cats)
    (hids : (cats.map (fun c => c.id)).Nodup) :
    (get_dashboard cats txns today).top_categories.length ≤ 5
    ∧ (get_dashboard cats txns today).top_categories.Pairwise
        (fun a b => b.amount ≤ a.amount)
    ∧ (∀ e ∈ (get_dashboard cats txns today).top_categories,
        ∃ raw, 0 ≤ raw ∧ e.amount = round2 raw
          ∧ e.percentage = (if totalExpensesRaw txns ≠ 0
              then round1 (raw / totalExpensesRaw txns * 100) else 0)
          ∧ raw = (((txns.filter (catSel
              ((cats.filter (fun c => c.type == "expense")).map
                (fun c => c.id)))).filter
              (fun t => decide (t.category_id.getD 0 = e.category_id))).map
              (fun t => |t.amount|)).sum)
    ∧ (∀ q : ℚ,
        (stSort (fun a b => decide (b.2 ≤ a.2))
            (txns.foldl (catTotalsStep
              ((cats.filter (fun c => c.type == "expense")).map
                (fun c => c.id))) [])).filter (fun p => decide (p.2 = q))
          = (txns.foldl (catTotalsStep
              ((cats.filter (fun c => c.type == "expense")).map
                (fun c => c.id))) []).filter (fun p => decide (p.2 = q)))
    ∧ ((get_dashboard cats txns today).top_categories.map
        (fun e => e.percentage)).sum
        ≤ 100 + ((get_dashboard cats txns today).top_categories.length : ℚ)
            * (1/20) := by
  have htopeq : (get_dashboard cats txns today).top_categories
      = topCategoriesOf cats txns ((txns.foldl totalsStep (0, 0)).2) := rfl
  have hte_nonneg : 0 ≤ totalExpensesRaw txns := by
    apply List.sum_nonneg
    intro q hq
    obtain ⟨t, ht, rfl⟩ := List.mem_map.mp hq
    exact abs_nonneg _
  refine ⟨?_, ?_, ?_, ?_, ?_⟩
  · rw [htopeq]
    simp only [topCategoriesOf, List.length_map, List.length_take]
    exact Nat.min_le_left 5 _
  · rw [htopeq]
    simp only [topCategoriesOf]
    rw [List.pairwise_map]
    apply List.Pairwise.sublist (List.take_sublist 5 _)
    exact (pairwise_stSort _ rankedTotals_le_total rankedTotals_le_trans _).imp
      (fun h => round2_mono (of_decide_eq_true h))
  · intro e he
    rw [htopeq] at he
    obtain ⟨raw, hnn, hamt, hpct, hraw⟩ :=
      top_entry_char cats txns ((txns.foldl totalsStep (0, 0)).2) e he
    refine ⟨raw, hnn, hamt, ?_, hraw⟩
    rw [hpct, totalsStep_snd_raw]
  · intro q
    apply filter_stSort
    intro a b ha hb
    have ha2 : a.2 = q := of_decide_eq_true ha
    have hb2 : b.2 = q := of_decide_eq_true hb
    exact decide_eq_true (le_of_eq (hb2.trans ha2.symm))
  · rw [htopeq]
    simp only [topCategoriesOf]
    rw [map_pct_mkTopCat, List.length_map, totalsStep_snd_raw]
    by_cases hte : totalExpensesRaw txns = 0
    · have hz : (((stSort (fun a b => decide (b.2 ≤ a.2))
          (txns.foldl (catTotalsStep
            ((cats.filter (fun c => c.type == "expense")).map
              (fun c => c.id))) [])).take 5).map
          (fun p => if totalExpensesRaw txns ≠ 0
            then round1 (p.2 / totalExpensesRaw txns * 100)
            else 0)).sum = 0 := by
        apply List.sum_eq_zero
        intro x hx
        obtain ⟨p, hp, rfl⟩ := List.mem_map.mp hx
        rw [if_neg (by rw [hte]; exact fun h => h rfl)]
      rw [hz]
      have hlen : (0 : ℚ) ≤ (((stSort (fun a b => decide (b.2 ≤ a.2))
          (txns.foldl (catTotalsStep
            ((cats.filter (fun c => c.type == "expense")).map
              (fun c => c.id))) [])).take 5).length : ℚ) := Nat.cast_nonneg _
      linarith
    · have hte_pos : 0 < totalExpensesRaw txns :=
        lt_of_le_of_ne hte_nonneg (Ne.symm hte)
      have hA : ∀ p ∈ ((stSort (fun a b => decide (b.2 ≤ a.2))
          (txns.foldl (catTotalsStep
            ((cats.filter (fun c => c.type == "expense")).map
              (fun c => c.id))) [])).take 5),
          (if totalExpensesRaw txns ≠ 0
            then round1 (p.2 / totalExpensesRaw txns * 100)
            else 0)
          ≤ p.2 * (100 / totalExpensesRaw txns) + 1/20 := by
        intro p hp
        rw [if_pos hte]
        have h1 := round1_le (p.2 / totalExpensesRaw txns * 100)
        have h2 : p.2 / totalExpensesRaw txns * 100
            = p.2 * (100 / totalExpensesRaw txns) := by ring
        linarith [h2 ▸ h1]
      have hB := List.sum_le_sum hA
      have hC := sum_map_add_const ((stSort (fun a b => decide (b.2 ≤ a.2))
          (txns.foldl (catTotalsStep
            ((cats.filter (fun c => c.type == "expense")).map
              (fun c => c.id))) [])).take 5)
          (fun p => p.2 * (100 / totalExpensesRaw txns)) (1/20)
      have hD := sum_map_mul_const ((stSort (fun a b => decide (b.2 ≤ a.2))
          (txns.foldl (catTotalsStep
            ((cats.filter (fun c => c.type == "expense")).map
              (fun c => c.id))) [])).take 5)
          (fun p => p.2) (100 / totalExpensesRaw txns)
      have hE : ((((stSort (fun a b => decide (b.2 ≤ a.2))
          (txns.foldl (catTotalsStep
            ((cats.filter (fun c => c.type == "expense")).map
              (fun c => c.id))) [])).take 5)).map (fun p => p.2)).sum
          ≤ ((stSort (fun a b => decide (b.2 ≤ a.2))
              (txns.foldl (catTotalsStep
                ((cats.filter (fun c => c.type == "expense")).map
                  (fun c => c.id))) [])).map (fun p => p.2)).sum := by
        apply sum_map_take_le
        intro p hp
        exact catTotals_values_nonneg _ txns p ((stSort_perm _ _).mem_iff.mp hp)
      have hF : ((stSort (fun a b => decide (b.2 ≤ a.2))
          (txns.foldl (catTotalsStep
            ((cats.filter (fun c => c.type == "expense")).map
              (fun c => c.id))) [])).map (fun p => p.2)).sum
          = ((txns.foldl (catTotalsStep
              ((cats.filter (fun c => c.type == "expense")).map
                (fun c => c.id))) []).map (fun p => p.2)).sum :=
        List.Perm.sum_eq ((stSort_perm _ _).map _)
      have hG := catTotals_sum_eq
        ((cats.filter (fun c => c.type == "expense")).map (fun c => c.id)) txns
      have hH : ((txns.filter (catSel
          ((cats.filter (fun c => c.type == "expense")).map
            (fun c => c.id)))).map (fun t => |t.amount|)).sum
          ≤ totalExpensesRaw txns := by
        rw [totalExpensesRaw]
        apply sum_filter_mono
        · exact catSel_nonIncome cats txns hconsist hids
        · intro t ht
          exact abs_nonneg _
      have hle : ((((stSort (fun a b => decide (b.2 ≤ a.2))
          (txns.foldl (catTotalsStep
            ((cats.filter (fun c => c.type == "expense")).map
              (fun c => c.id))) [])).take 5)).map (fun p => p.2)).sum
          ≤ totalExpensesRaw txns := by
        rw [hG] at hF
        rw [hF] at hE
        exact le_trans hE hH
      have hI : ((((stSort (fun a b => decide (b.2 ≤ a.2))
          (txns.foldl (catTotalsStep
            ((cats.filter (fun c => c.type == "expense")).map
              (fun c => c.id))) [])).take 5)).map (fun p => p.2)).sum
          * (100 / totalExpensesRaw txns) ≤ 100 := by
        have hfactor : 0 ≤ 100 / totalExpensesRaw txns := by positivity
        have := mul_le_mul_of_nonneg_right hle hfactor
        have heq : totalExpensesRaw txns * (100 / totalExpensesRaw txns) = 100 := by
          field_simp
        linarith
      rw [hD] at hC
      rw [hC] at hB
      linarith

theorem C6_amended_top_categories_witness :
    (get_dashboard dashCats dashTxns ⟨2025, 6, 30⟩).top_categories.length ≤ 5 :=
  (C6_amended_top_categories dashCats dashTxns ⟨2025, 6, 30⟩
    (by
      intro t ht c hc
      fin_cases ht <;>
      · injection hc with h
        rw [← h]
        with_unfolding_all decide)
    (by with_unfolding_all decide)).1
